import Mathlib

/-!
# Verification of the mailbox backup synchronization engine

A shallow embedding of the sync engine of `main.py` and the backfill pass of
`migration_script.py`.  The SQLite store is modelled as explicit lists of rows
(insertion-ordered, as SQLite returns them without `ORDER BY`); AUTOINCREMENT
keys are modelled by explicit `next…` counters starting at 1; the IMAP mailbox
is modelled as a black-box capability (folder list, per-folder UIDVALIDITY,
messages per folder, fetch by UID predicate), exactly as the spec scopes it.
Exceptions raised and caught in the Python code are modelled by explicit
branches; failure injection (network errors, extraction errors) is modelled by
boolean oracles.  All strings handled by the concrete claims are ASCII, so
Python's `str.lower`/`str.strip` are embedded as their ASCII restrictions.
-/

namespace MailBackup

/-- Python `str.strip()` whitespace test (ASCII whitespace characters). -/
def pyIsSpace (c : Char) : Bool :=
  c == ' ' || c == '\t' || c == '\n' || c == '\r' || c == '\x0b' || c == '\x0c'

/-- Python `str.strip()`: drop leading and trailing whitespace. -/
def pyStrip (s : String) : String :=
  ⟨((s.data.dropWhile pyIsSpace).reverse.dropWhile pyIsSpace).reverse⟩

/-- Python `str.lower()` restricted to ASCII letters. -/
def pyLower (s : String) : String :=
  ⟨s.data.map (fun c => if 'A' ≤ c ∧ c ≤ 'Z' then Char.ofNat (c.toNat + 32) else c)⟩

/-- Python `re.split(r'[;,]', s)`: split at every `;` or `,`, keeping empty
pieces (walking the character list, accumulating the current piece). -/
def splitDelimsAux : List Char → List Char → List String
  | [], acc => [⟨acc.reverse⟩]
  | c :: cs, acc =>
      if c = ';' ∨ c = ',' then ⟨acc.reverse⟩ :: splitDelimsAux cs []
      else splitDelimsAux cs (c :: acc)

def splitDelims (s : String) : List String :=
  splitDelimsAux s.data []

/-- The duck-typed argument of `parse_recipients` in `main.py`: a delimited
string, a list of address strings, or anything else (`else` branch). -/
inductive Recipients where
  | str (s : String)
  | list (l : List String)
  | other
deriving DecidableEq

/-- `main.py` `parse_recipients`: accepts a comma/semicolon separated string or
a list of addresses; returns the split pieces, stripped, with empties dropped. -/
def parse_recipients : Recipients → List String
  | .str s =>
      if s = "" then []
      else ((splitDelims s).map pyStrip).filter (fun e => e ≠ "")
  | .list l =>
      if l = [] then []
      else l.flatMap (fun item => ((splitDelims item).map pyStrip).filter (fun e => e ≠ ""))
  | .other => []

/-- `migration_script.py` `parse_recipients`: same split but the pieces are
stripped *and lowercased* (`e.strip().lower()`). -/
def mig_parse_recipients (s : String) : List String :=
  if s = "" then []
  else ((splitDelims s).map (fun e => pyLower (pyStrip e))).filter (fun e => e ≠ "")

/-- A parsed message as exposed by the mail capability (imap_tools
`MailMessage`): uid, subject, sender, recipient lists, date (ISO-8601 text),
bodies, saved-attachment paths, and the optional Message-ID header. -/
structure Msg where
  uid : Nat
  subject : String
  sender : String
  tos : List String
  cc : List String
  bcc : List String
  date : String
  text : String
  html : String
  attachments : List String
  messageId : Option String
deriving DecidableEq

/-- A row of the raw `downloaded_emails` table (PRIMARY KEY `(uid, folder)`). -/
structure DownloadedRow where
  uid : Nat
  folder : String
  subject : String
  sender : String
  recipients : String
  cc : String
  bcc : String
  date : String
  bodyText : String
  bodyHtml : String
  attachmentDir : Option String
  messageId : Option String
deriving DecidableEq

/-- A row of the normalized `email` table of `main.py`
(`email_pk INTEGER PRIMARY KEY AUTOINCREMENT`; no other uniqueness constraint). -/
structure EmailRow where
  pk : Nat
  uid : Nat
  folder : String
  subject : String
  date : String
  bodyText : String
  bodyHtml : String
  attachmentDir : Option String
  messageId : Option String
deriving DecidableEq

/-- The SQLite store of `main.py`: raw rows, per-folder UIDVALIDITY,
and the normalized tables (`email`, `email_address`, `email_participant`).
Row lists are in insertion order; `next…` counters model AUTOINCREMENT. -/
structure Store where
  downloaded : List DownloadedRow
  folderUidValidity : List (String × Nat)
  emailRows : List EmailRow
  nextEmailPk : Nat
  addresses : List (Nat × String)
  nextAddrId : Nat
  participants : List (Nat × Nat × String)
deriving DecidableEq

/-- A fresh database, as created by `init_db`. -/
def emptyStore : Store :=
  { downloaded := [], folderUidValidity := [], emailRows := [], nextEmailPk := 1,
    addresses := [], nextAddrId := 1, participants := [] }

/-- `get_max_uid`: `SELECT MAX(CAST(uid AS INTEGER)) FROM downloaded_emails
WHERE folder = ?` (uids are stored as decimal text, so the cast is the
identity on the modelled `Nat` uids). -/
def maxUidAux : List Nat → Option Nat
  | [] => none
  | u :: us =>
      match maxUidAux us with
      | none => some u
      | some v => some (max u v)

def get_max_uid (s : Store) (folder : String) : Option Nat :=
  maxUidAux ((s.downloaded.filter (fun r => r.folder == folder)).map (fun r => r.uid))

/-- `get_existing_uids`: the set of uids already stored for a folder. -/
def get_existing_uids (s : Store) (folder : String) : List Nat :=
  (s.downloaded.filter (fun r => r.folder == folder)).map (fun r => r.uid)

/-- `is_email_downloaded`: `SELECT 1 FROM downloaded_emails WHERE uid = ? AND folder = ?`. -/
def is_email_downloaded (s : Store) (uid : Nat) (folder : String) : Bool :=
  s.downloaded.any (fun r => r.uid == uid && r.folder == folder)

/-- `mark_email_downloaded`: `INSERT OR IGNORE` keyed by the `(uid, folder)`
primary key — a no-op when the key is already present. -/
def mark_email_downloaded (s : Store) (r : DownloadedRow) : Store :=
  if s.downloaded.any (fun d => d.uid == r.uid && d.folder == r.folder) then s
  else { s with downloaded := s.downloaded ++ [r] }

/-- `get_uidvalidity`: lookup in `folder_uidvalidity` (folder is the primary key). -/
def get_uidvalidity (s : Store) (folder : String) : Option Nat :=
  match s.folderUidValidity.find? (fun p => p.1 == folder) with
  | some p => some p.2
  | none => none

/-- `set_uidvalidity`: `INSERT OR REPLACE` on the `folder` primary key. -/
def set_uidvalidity (s : Store) (folder : String) (v : Nat) : Store :=
  { s with folderUidValidity :=
      (s.folderUidValidity.filter (fun p => p.1 != folder)) ++ [(folder, v)] }

/-- `get_or_create_email_address`: empty input yields `None`; otherwise the
address is stripped and lowercased, looked up in `email_address` (whose
`email` column is UNIQUE), and inserted when absent. -/
def get_or_create_email_address (s : Store) (email : String) : Option Nat × Store :=
  if email = "" then (none, s)
  else
    let e := pyLower (pyStrip email)
    match s.addresses.find? (fun p => p.2 == e) with
    | some p => (some p.1, s)
    | none =>
        (some s.nextAddrId,
         { s with addresses := s.addresses ++ [(s.nextAddrId, e)],
                  nextAddrId := s.nextAddrId + 1 })

/-- `get_or_create_email` of `main.py`.  The `email` table has no uniqueness
constraint besides its AUTOINCREMENT primary key, so `INSERT OR IGNORE`
always inserts a fresh row (committed immediately).  The following
`SELECT email_pk … WHERE uid = ? AND folder = ? AND message_id = ?` returns
the first matching row; when `message_id` is `None` the SQL comparison
`message_id = NULL` matches no row, so `cur.fetchone()[0]` raises a
`TypeError` — modelled by returning `none` for the pk (the inserted row
stays committed). -/
def get_or_create_email (s : Store) (uid : Nat) (folder subject date bodyText bodyHtml : String)
    (attachmentDir : Option String) (messageId : Option String) : Store × Option Nat :=
  let row : EmailRow :=
    { pk := s.nextEmailPk, uid := uid, folder := folder, subject := subject, date := date,
      bodyText := bodyText, bodyHtml := bodyHtml, attachmentDir := attachmentDir,
      messageId := messageId }
  let s' := { s with emailRows := s.emailRows ++ [row], nextEmailPk := s.nextEmailPk + 1 }
  match messageId with
  | none => (s', none)
  | some mid =>
      (s', (s'.emailRows.find? (fun r => r.uid == uid && r.folder == folder
              && r.messageId == some mid)).map (fun r => r.pk))

/-- `add_participant`: resolve the address (no-op for an empty address) and
`INSERT OR IGNORE` into `email_participant`, whose primary key is the whole
`(email_pk, email_id, role)` triple. -/
def add_participant (s : Store) (email_pk : Nat) (addr : String) (role : String) : Store :=
  match get_or_create_email_address s addr with
  | (none, s') => s'
  | (some id, s') =>
      if (email_pk, id, role) ∈ s'.participants then s'
      else { s' with participants := s'.participants ++ [(email_pk, id, role)] }

/-- `split_into_batches`: consecutive slices of size `batchSize` (the source
always calls it with a positive size; size 0 is mapped to no batches).  The
recursion is driven by a fuel argument bounded by the list length, so the
definition evaluates by kernel reduction; `split_into_batches` instantiates
the fuel with the list length, which always suffices. -/
def split_chunks : Nat → List Nat → Nat → List (List Nat)
  | _, [], _ => []
  | _, _ :: _, 0 => []
  | 0, _ :: _, _ + 1 => []
  | fuel + 1, a :: l, (k + 1) =>
      (a :: l).take (k + 1) :: split_chunks fuel ((a :: l).drop (k + 1)) (k + 1)

def split_into_batches (l : List Nat) (k : Nat) : List (List Nat) :=
  split_chunks l.length l k

/-- The mail capability as the spec scopes it: folder listing, per-folder
UIDVALIDITY from the folder status, and the folder's parsed messages. -/
structure Mailbox where
  folders : List String
  uidvalidity : String → Nat
  msgs : String → List Msg

/-- A UID predicate of an issued fetch: `AND(all=True)`,
`AND(uid="{U+1}:*")` (all uids strictly above `U`), or `AND(uid=batch)`. -/
inductive FetchQuery where
  | all
  | gtUid (u : Nat)
  | uidIn (l : List Nat)
deriving DecidableEq

/-- Which uids a fetch query asks the server for. -/
def FetchQuery.requests : FetchQuery → Nat → Bool
  | .all, _ => true
  | .gtUid v, u => v < u
  | .uidIn l, u => l.contains u

/-- The mail capability's batch fetch: the folder's messages matching the
UID predicate. -/
def fetchMsgs (M : Mailbox) (folder : String) (q : FetchQuery) : List Msg :=
  (M.msgs folder).filter (fun m => q.requests m.uid)

/-- The `downloaded_emails` row built for a message in both the main pass and
the retry pass: recipients/cc/bcc joined with `", "`, ISO date, first saved
attachment path (or NULL), and the extracted Message-ID header. -/
def rawRowOf (folder : String) (m : Msg) : DownloadedRow :=
  { uid := m.uid, folder := folder, subject := m.subject, sender := m.sender,
    recipients := String.intercalate ", " m.tos, cc := String.intercalate ", " m.cc,
    bcc := String.intercalate ", " m.bcc, date := m.date, bodyText := m.text,
    bodyHtml := m.html, attachmentDir := m.attachments.head?, messageId := m.messageId }

/-- The per-message body of the batch loop in `main` (lines 607–639).
`existing` is the uid set computed once before the batch loop; `fails`
injects an exception raised by `extract_email_data` (caught by the
per-message handler, which calls `log_error`, queueing `(uid, folder)`).
A `TypeError` escaping `get_or_create_email` (absent Message-ID) is caught
by the same handler, after the raw row and the email row were committed. -/
def process_message (fails : String → Nat → Bool) (folder : String) (existing : List Nat)
    (sq : Store × List (Nat × String)) (m : Msg) : Store × List (Nat × String) :=
  let s := sq.1
  let q := sq.2
  if m.uid ∈ existing then (s, q)
  else if fails folder m.uid then (s, q ++ [(m.uid, folder)])
  else
    let s1 := mark_email_downloaded s (rawRowOf folder m)
    match get_or_create_email s1 m.uid folder m.subject m.date m.text m.html
        m.attachments.head? m.messageId with
    | (s2, none) => (s2, q ++ [(m.uid, folder)])
    | (s2, some pk) =>
        let s3 := add_participant s2 pk m.sender "from"
        let s4 := (parse_recipients (.list m.tos)).foldl
          (fun t a => add_participant t pk a "to") s3
        let s5 := (parse_recipients (.list m.cc)).foldl
          (fun t a => add_participant t pk a "cc") s4
        let s6 := (parse_recipients (.list m.bcc)).foldl
          (fun t a => add_participant t pk a "bcc") s5
        (s6, q)

/-- Result of one folder attempt: updated store, retry queue, and the fetch
queries issued against the server during the attempt. -/
structure AttemptOut where
  store : Store
  queue : List (Nat × String)
  fetches : List (String × FetchQuery)

/-- The UID predicate chosen at the start of a folder attempt: incremental
`AND(uid="{max_uid + 1}:*")` when a max stored uid exists, else
`AND(all=True)`. -/
def initial_query (s : Store) (folder : String) : FetchQuery :=
  match get_max_uid s folder with
  | some u => .gtUid u
  | none => .all

/-- One iteration of the batch loop: skip the batch entirely (no round-trip)
when every uid is already stored, otherwise fetch the batch and process its
messages one by one. -/
def attempt_step (M : Mailbox) (fails : String → Nat → Bool) (folder : String)
    (existing : List Nat) (acc : AttemptOut) (batch : List Nat) : AttemptOut :=
  if batch.all (fun u => u ∈ existing) then acc
  else
    let msgs := fetchMsgs M folder (.uidIn batch)
    let sq := msgs.foldl (process_message fails folder existing) (acc.store, acc.queue)
    { store := sq.1, queue := sq.2,
      fetches := acc.fetches ++ [(folder, FetchQuery.uidIn batch)] }

/-- One attempt at a folder (the body of the `while` loop in `main`,
lines 584–640): choose the incremental (`uid > max`) or full predicate,
enumerate uids, batch them by 10, skip batches whose uids are all already
stored (no round-trip), fetch and process the rest message by message. -/
def folder_attempt (M : Mailbox) (fails : String → Nat → Bool) (folder : String)
    (s : Store) (q : List (Nat × String)) : AttemptOut :=
  let mq := initial_query s folder
  let allUids := (fetchMsgs M folder mq).map (fun m => m.uid)
  let existing := get_existing_uids s folder
  let batches := split_into_batches allUids 10
  batches.foldl (attempt_step M fails folder existing)
    { store := s, queue := q, fetches := [(folder, mq)] }

/-- `ensure_folder_and_uidvalidity`: read UIDVALIDITY from the folder status;
no stored value → record it as baseline; a differing stored value → raise
`RuntimeError` (UIDVALIDITY mismatch), modelled as `.error`. -/
def ensure_folder_and_uidvalidity (M : Mailbox) (s : Store) (folder : String) :
    Except Unit Store :=
  let current := M.uidvalidity folder
  match get_uidvalidity s folder with
  | some stored => if stored ≠ current then .error () else .ok s
  | none => .ok (set_uidvalidity s folder current)

/-- Result of the bounded per-folder retry loop: final store and queue, whether
the folder was recorded as permanently failed, issued fetches, the `time.sleep`
durations performed, and the number of the last attempt made. -/
structure FolderOut where
  store : Store
  queue : List (Nat × String)
  failed : Bool
  fetches : List (String × FetchQuery)
  sleeps : List Nat
  attemptsMade : Nat

/-- The `while attempt < retry_limit` loop of `main` (lines 572–647) with
`retry_limit = 3`: each attempt either succeeds (break) or raises; a raise on
the last attempt records the folder as failed, otherwise `time.sleep(5)` and
retry.  `folderFails folder a` injects a folder-level exception thrown by the
mailbox calls at the start of attempt `a` (before any store effect). -/
def attempt_loop_go (M : Mailbox) (fails folderFails : String → Nat → Bool)
    (folder : String) :
    Nat → Nat → Store → List (Nat × String) → FolderOut
  | 0, attempt, s, q =>
      { store := s, queue := q, failed := false, fetches := [], sleeps := [],
        attemptsMade := attempt }
  | fuel + 1, attempt, s, q =>
      if attempt < 3 then
        if folderFails folder (attempt + 1) then
          if attempt + 1 = 3 then
            { store := s, queue := q, failed := true, fetches := [], sleeps := [],
              attemptsMade := attempt + 1 }
          else
            let out := attempt_loop_go M fails folderFails folder fuel (attempt + 1) s q
            { out with sleeps := 5 :: out.sleeps }
        else
          let ao := folder_attempt M fails folder s q
          { store := ao.store, queue := ao.queue, failed := false, fetches := ao.fetches,
            sleeps := [], attemptsMade := attempt + 1 }
      else
        { store := s, queue := q, failed := false, fetches := [], sleeps := [],
          attemptsMade := attempt }

def attempt_loop (M : Mailbox) (fails folderFails : String → Nat → Bool) (folder : String)
    (attempt : Nat) (s : Store) (q : List (Nat × String)) : FolderOut :=
  attempt_loop_go M fails folderFails folder (3 - attempt) attempt s q

/-- The configured case-insensitive folder denylist of `main`. -/
def skip_folders : List String :=
  ["[gmail]/spam", "[gmail]/trash", "inbox.spam", "inbox.trash", "junk", "trash"]

/-- Result of the folder loop: store, retry queue, permanently failed folders,
issued fetches, sleeps, and the folder at which a UIDVALIDITY mismatch broke
the loop (`none` when the loop ran to completion). -/
structure LoopOut where
  store : Store
  queue : List (Nat × String)
  failedFolders : List String
  fetches : List (String × FetchQuery)
  sleeps : List Nat
  halted : Option String

/-- The folder loop of `main` (lines 566–647): skip denylisted folders,
validate/record UIDVALIDITY (a mismatch raises: `log(str(e)); break`), then
run the bounded attempt loop and move to the next folder. -/
def folder_loop (M : Mailbox) (fails folderFails : String → Nat → Bool) :
    List String → Store → List (Nat × String) → List String → LoopOut
  | [], s, q, ff =>
      { store := s, queue := q, failedFolders := ff, fetches := [], sleeps := [], halted := none }
  | f :: rest, s, q, ff =>
      if pyLower f ∈ skip_folders then folder_loop M fails folderFails rest s q ff
      else
        match ensure_folder_and_uidvalidity M s f with
        | .error _ =>
            { store := s, queue := q, failedFolders := ff, fetches := [], sleeps := [],
              halted := some f }
        | .ok s' =>
            let fo := attempt_loop M fails folderFails f 0 s' q
            let lo := folder_loop M fails folderFails rest fo.store fo.queue
                        (if fo.failed then ff ++ [f] else ff)
            { store := lo.store, queue := lo.queue, failedFolders := lo.failedFolders,
              fetches := fo.fetches ++ lo.fetches, sleeps := fo.sleeps ++ lo.sleeps,
              halted := lo.halted }

/-- One iteration of the end-of-run retry (`main` lines 655–673) for queue
entry `(uid, folder)`: a fresh connection, `fetch(AND(uid=uid))`, and
`mark_email_downloaded`.  Any exception (`StopIteration` from `next` when the
uid is gone, or an injected `retryFails`) is caught and handled by
`log_error` — which *appends the entry back onto `failed_emails`*, the very
list being iterated.  Returns the store, the entry to append (if any), and
the fetch issued. -/
def retry_step (M : Mailbox) (retryFails : String → Nat → Bool) (s : Store)
    (uid : Nat) (folder : String) :
    Store × Option (Nat × String) × List (String × FetchQuery) :=
  let fe := [(folder, FetchQuery.uidIn [uid])]
  match (M.msgs folder).find? (fun m => m.uid == uid) with
  | none => (s, some (uid, folder), fe)
  | some m =>
      if retryFails folder uid then (s, some (uid, folder), fe)
      else (mark_email_downloaded s (rawRowOf folder m), none, fe)

/-- Python's `for uid, folder in failed_emails:` is index-based iteration over
a list that `log_error` may extend while it is being iterated.  `retry_iter`
runs up to `n` iterations of that loop from index `i`; the loop itself has
finished exactly when the index has reached the (current) length. -/
def retry_iter (M : Mailbox) (retryFails : String → Nat → Bool) :
    Nat → Store → List (Nat × String) → Nat →
    Store × List (Nat × String) × Nat × List (String × FetchQuery)
  | 0, s, lst, i => (s, lst, i, [])
  | n + 1, s, lst, i =>
      match lst[i]? with
      | none => (s, lst, i, [])
      | some (uid, folder) =>
          let step := retry_step M retryFails s uid folder
          let lst' := match step.2.1 with
            | some e => lst ++ [e]
            | none => lst
          let rest := retry_iter M retryFails n step.1 lst' (i + 1)
          (rest.1, rest.2.1, rest.2.2.1, step.2.2 ++ rest.2.2.2)

/-- Result of a whole run of `main`: the store when the folder loop returned
(`midStore` — on a UIDVALIDITY halt this is the store at the moment the
mismatch was detected, since the loop breaks there), the final store after the
end-of-run retry pass, the final retry list and failed folders, all issued
fetches, the halt folder, and whether the retry pass's iteration finished. -/
structure RunOut where
  midStore : Store
  store : Store
  queue : List (Nat × String)
  failedFolders : List String
  fetches : List (String × FetchQuery)
  halted : Option String
  retryDone : Bool

/-- A full run of `main` (lines 550–682): the folder loop over the mailbox's
folders starting from an empty `failed_emails` queue, followed by the
end-of-run retry pass.  The retry pass is iterated with fuel equal to the
queue length, which coincides with the source loop exactly when no retried
message fails again (then each iteration consumes one entry, appends none,
and the loop ends with the index at the length, `retryDone = true`); the
re-failing case, where the source loop grows the list it iterates, is
analyzed separately through `retry_iter`. -/
def run_sync (M : Mailbox) (fails folderFails retryFails : String → Nat → Bool)
    (s0 : Store) : RunOut :=
  let lo := folder_loop M fails folderFails M.folders s0 [] []
  let rp := retry_iter M retryFails lo.queue.length lo.store lo.queue 0
  { midStore := lo.store, store := rp.1, queue := rp.2.1, failedFolders := lo.failedFolders,
    fetches := lo.fetches ++ rp.2.2.2, halted := lo.halted,
    retryDone := decide (rp.2.1.length ≤ rp.2.2.1) }

/-! ## The backfill pass of `migration_script.py` -/

/-- A row of the `email` table created by `migration_script.py`
(`email_pk INTEGER PRIMARY KEY AUTOINCREMENT`, no `message_id` column, and
no uniqueness constraint on `(uid, folder)`). -/
structure MigEmailRow where
  pk : Nat
  uid : Nat
  folder : String
  subject : String
  date : String
  bodyText : String
  bodyHtml : String
  attachmentDir : Option String
deriving DecidableEq

/-- The normalized tables as seen by the migration script. -/
structure MigStore where
  emailRows : List MigEmailRow
  nextEmailPk : Nat
  addresses : List (Nat × String)
  nextAddrId : Nat
  participants : List (Nat × Nat × String)
deriving DecidableEq

/-- Freshly created normalized tables (`create_tables`). -/
def migEmptyStore : MigStore :=
  { emailRows := [], nextEmailPk := 1, addresses := [], nextAddrId := 1, participants := [] }

/-- `get_or_create_email_address` of `migration_script.py` (same logic as in
`main.py`: strip, lowercase, lookup in the UNIQUE `email` column, insert when
absent). -/
def mig_get_or_create_email_address (s : MigStore) (email : String) :
    Option Nat × MigStore :=
  if email = "" then (none, s)
  else
    let e := pyLower (pyStrip email)
    match s.addresses.find? (fun p => p.2 == e) with
    | some p => (some p.1, s)
    | none =>
        (some s.nextAddrId,
         { s with addresses := s.addresses ++ [(s.nextAddrId, e)],
                  nextAddrId := s.nextAddrId + 1 })

/-- `get_or_create_email` of `migration_script.py`: `INSERT OR IGNORE` into an
`email` table whose only constraint is the AUTOINCREMENT primary key — so the
insert always adds a fresh row — followed by
`SELECT email_pk FROM email WHERE uid = ? AND folder = ?`, which returns the
first (lowest-pk) matching row. -/
def mig_get_or_create_email (s : MigStore) (r : DownloadedRow) : Nat × MigStore :=
  let row : MigEmailRow :=
    { pk := s.nextEmailPk, uid := r.uid, folder := r.folder, subject := r.subject,
      date := r.date, bodyText := r.bodyText, bodyHtml := r.bodyHtml,
      attachmentDir := r.attachmentDir }
  let s' := { s with emailRows := s.emailRows ++ [row], nextEmailPk := s.nextEmailPk + 1 }
  match s'.emailRows.find? (fun e => e.uid == r.uid && e.folder == r.folder) with
  | some e => (e.pk, s')
  | none => (0, s')

/-- The guarded `INSERT OR IGNORE INTO email_participant` of the migration
script (`if …_email_id:` then insert; the triple is the primary key). -/
def mig_link (s : MigStore) (pk : Nat) (addrId : Option Nat) (role : String) : MigStore :=
  match addrId with
  | none => s
  | some id =>
      if (pk, id, role) ∈ s.participants then s
      else { s with participants := s.participants ++ [(pk, id, role)] }

/-- The body of the backfill loop of `migration_script.py` `main` (lines
179–212) for one `downloaded_emails` row: get-or-create the email row, link
the sender as `from`, and the parsed recipients/cc/bcc as `to`/`cc`/`bcc`. -/
def mig_process_row (s : MigStore) (r : DownloadedRow) : MigStore :=
  let pks := mig_get_or_create_email s r
  let pk := pks.1
  let sa := mig_get_or_create_email_address pks.2 r.sender
  let s3 := mig_link sa.2 pk sa.1 "from"
  let s4 := (mig_parse_recipients r.recipients).foldl
    (fun t a =>
      let ia := mig_get_or_create_email_address t a
      mig_link ia.2 pk ia.1 "to") s3
  let s5 := (mig_parse_recipients r.cc).foldl
    (fun t a =>
      let ia := mig_get_or_create_email_address t a
      mig_link ia.2 pk ia.1 "cc") s4
  (mig_parse_recipients r.bcc).foldl
    (fun t a =>
      let ia := mig_get_or_create_email_address t a
      mig_link ia.2 pk ia.1 "bcc") s5

/-- The backfill pass of `migration_script.py` `main`: rebuild the normalized
tables from every stored `downloaded_emails` row, in order. -/
def backfill (s : MigStore) (rows : List DownloadedRow) : MigStore :=
  rows.foldl mig_process_row s

/-! ## Derived notions and concrete scenarios used by the verification -/

/-- A folder is *quiet* in a store when the incremental predicate derived from
the store can match none of the folder's messages: every message uid is at
most the stored maximum (or the folder is empty and nothing is stored).  A
quiet folder's attempt fetches an empty uid list and changes nothing. -/
def folderQuiet (M : Mailbox) (s : Store) (f : String) : Prop :=
  match get_max_uid s f with
  | some v => ∀ m ∈ M.msgs f, m.uid ≤ v
  | none => M.msgs f = []

/-- The constantly-false failure oracle: no injected network or extraction
failures. -/
def cfalse : String → Nat → Bool := fun _ _ => false

/-- The constantly-true failure oracle: every attempted operation raises. -/
def ctrue : String → Nat → Bool := fun _ _ => true

/-- A message carrying no Message-ID header (`extract_email_data` yields
`None` when the header is absent), with a known sender. -/
def msg_noMid : Msg :=
  { uid := 1, subject := "hello", sender := "alice@example.com", tos := [], cc := [],
    bcc := [], date := "2020-01-01T10:00:00", text := "body", html := "",
    attachments := [], messageId := none }

/-- A one-folder mailbox holding only `msg_noMid`. -/
def mbox_noMid : Mailbox :=
  { folders := ["INBOX"], uidvalidity := fun _ => 100,
    msgs := fun f => if f == "INBOX" then [msg_noMid] else [] }

/-- An ordinary message (Message-ID present). -/
def msg_plain : Msg :=
  { uid := 1, subject := "report", sender := "bob@example.com", tos := ["alice@example.com"],
    cc := [], bcc := [], date := "2021-05-05T09:00:00", text := "text", html := "",
    attachments := [], messageId := some "<m1@example.com>" }

/-- Two folders: folder "A" holds one fetchable message, folder "B" is the one
whose stored UIDVALIDITY (99) will disagree with the server's (200). -/
def mbox_skew : Mailbox :=
  { folders := ["A", "B"], uidvalidity := fun f => if f == "A" then 1 else 200,
    msgs := fun f => if f == "A" then [msg_plain] else [] }

/-- A store that already records UIDVALIDITY 99 for folder "B". -/
def store_skew : Store :=
  { emptyStore with folderUidValidity := [("B", 99)] }

/-- Failure oracle that fails the main-pass processing of folder "A"'s uid 1
(the message is queued for the end-of-run retry, which then succeeds). -/
def fails_skew : String → Nat → Bool := fun f u => f == "A" && u == 1

/-- A `downloaded_emails` row as read by the migration script. -/
def row_mig : DownloadedRow :=
  { uid := 1, folder := "INBOX", subject := "s", sender := "carol@example.com",
    recipients := "dave@example.com", cc := "", bcc := "", date := "2019-01-01",
    bodyText := "b", bodyHtml := "", attachmentDir := none, messageId := some "<x>" }

/-- A raw row already stored for folder "Sent" with uid 50. -/
def row_sent : DownloadedRow :=
  { uid := 50, folder := "Sent", subject := "old", sender := "bob@example.com",
    recipients := "", cc := "", bcc := "", date := "2021-01-01", bodyText := "",
    bodyHtml := "", attachmentDir := none, messageId := some "<old>" }

/-- A store whose max known uid for "Sent" is 50. -/
def store_sent : Store := { emptyStore with downloaded := [row_sent] }

/-- A second, well-formed message with uid 2 (a batch sibling). -/
def msg_second : Msg :=
  { uid := 2, subject := "second", sender := "erin@example.com", tos := [], cc := [],
    bcc := [], date := "2021-06-06T08:00:00", text := "ok", html := "",
    attachments := [], messageId := some "<m2@example.com>" }

/-- Failure oracle raising exactly for uid 1 (any folder). -/
def fails_uid1 : String → Nat → Bool := fun _ u => u == 1

/-! ## Basic lemmas about the store operations -/

theorem maxUidAux_le_of_mem {l : List Nat} {u : Nat} (h : u ∈ l) :
    ∃ v, maxUidAux l = some v ∧ u ≤ v := by
  induction l with
  | nil => cases h
  | cons a l ih =>
      rcases List.mem_cons.mp h with rfl | h
      · cases hl : maxUidAux l with
        | none => exact ⟨u, by simp [maxUidAux, hl], le_refl u⟩
        | some v => exact ⟨max u v, by simp [maxUidAux, hl], le_max_left u v⟩
      · obtain ⟨v, hv, huv⟩ := ih h
        exact ⟨max a v, by simp [maxUidAux, hv], le_trans huv (le_max_right a v)⟩

theorem maxUidAux_mem {l : List Nat} {v : Nat} (h : maxUidAux l = some v) : v ∈ l := by
  induction l generalizing v with
  | nil => simp [maxUidAux] at h
  | cons a l ih =>
      simp only [maxUidAux] at h
      cases hl : maxUidAux l with
      | none =>
          rw [hl] at h
          simp only [Option.some.injEq] at h
          exact h ▸ List.mem_cons_self a l
      | some w =>
          rw [hl] at h
          simp only [Option.some.injEq] at h
          rcases le_total a w with hle | hle
          · rw [max_eq_right hle] at h
            exact List.mem_cons_of_mem a (h ▸ ih hl)
          · rw [max_eq_left hle] at h
            exact List.mem_cons.mpr (Or.inl h.symm)

theorem maxUidAux_eq_none {l : List Nat} : maxUidAux l = none ↔ l = [] := by
  cases l with
  | nil => simp [maxUidAux]
  | cons a l => simp only [maxUidAux]; cases maxUidAux l <;> simp

theorem get_max_uid_le_of_mem {s : Store} {f : String} {r : DownloadedRow}
    (hr : r ∈ s.downloaded) (hf : r.folder = f) :
    ∃ v, get_max_uid s f = some v ∧ r.uid ≤ v := by
  apply maxUidAux_le_of_mem
  exact List.mem_map_of_mem _ (List.mem_filter.mpr ⟨hr, by simp [hf]⟩)

theorem get_max_uid_mem {s : Store} {f : String} {v : Nat} (h : get_max_uid s f = some v) :
    ∃ r ∈ s.downloaded, r.folder = f ∧ r.uid = v := by
  have := maxUidAux_mem h
  obtain ⟨r, hr, hu⟩ := List.mem_map.mp this
  have hrf := List.mem_filter.mp hr
  exact ⟨r, hrf.1, by simpa using hrf.2, hu⟩

theorem get_max_uid_mono {s t : Store} {f : String} {v : Nat}
    (hsub : ∀ r ∈ s.downloaded, r ∈ t.downloaded) (h : get_max_uid s f = some v) :
    ∃ w, get_max_uid t f = some w ∧ v ≤ w := by
  obtain ⟨r, hr, hf, hu⟩ := get_max_uid_mem h
  obtain ⟨w, hw, hvw⟩ := get_max_uid_le_of_mem (hsub r hr) hf
  exact ⟨w, hw, hu ▸ hvw⟩

theorem get_max_uid_none {s : Store} {f : String} (h : get_max_uid s f = none) :
    ∀ r ∈ s.downloaded, r.folder ≠ f := by
  intro r hr hf
  have := maxUidAux_eq_none.mp h
  have hmem : r.uid ∈ (s.downloaded.filter (fun r => r.folder == f)).map (fun r => r.uid) :=
    List.mem_map_of_mem _ (List.mem_filter.mpr ⟨hr, by simp [hf]⟩)
  rw [show (s.downloaded.filter (fun r => r.folder == f)).map (fun r => r.uid) = [] from this]
    at hmem
  cases hmem

/-- `is_email_downloaded` holds exactly when a row with that key is stored. -/
theorem is_email_downloaded_iff {s : Store} {uid : Nat} {f : String} :
    is_email_downloaded s uid f = true ↔ ∃ r ∈ s.downloaded, r.uid = uid ∧ r.folder = f := by
  simp [is_email_downloaded, List.any_eq_true]

theorem mark_downloaded_mem {s : Store} {r r' : DownloadedRow}
    (h : r' ∈ s.downloaded) : r' ∈ (mark_email_downloaded s r).downloaded := by
  unfold mark_email_downloaded
  split <;> simp [h]

theorem mark_downloaded_cases {s : Store} {r r' : DownloadedRow}
    (h : r' ∈ (mark_email_downloaded s r).downloaded) :
    r' ∈ s.downloaded ∨ r' = r := by
  unfold mark_email_downloaded at h
  split at h
  · exact Or.inl h
  · simpa using h

theorem mark_downloaded_self {s : Store} {r : DownloadedRow} :
    is_email_downloaded (mark_email_downloaded s r) r.uid r.folder = true := by
  rw [is_email_downloaded_iff]
  unfold mark_email_downloaded
  split
  · next h =>
      simp only [List.any_eq_true, Bool.and_eq_true, beq_iff_eq] at h
      obtain ⟨d, hd, hdu, hdf⟩ := h
      exact ⟨d, hd, hdu, hdf⟩
  · exact ⟨r, by simp⟩

theorem mark_email_downloaded_frame {s : Store} {r : DownloadedRow} :
    (mark_email_downloaded s r).folderUidValidity = s.folderUidValidity ∧
    (mark_email_downloaded s r).emailRows = s.emailRows ∧
    (mark_email_downloaded s r).nextEmailPk = s.nextEmailPk ∧
    (mark_email_downloaded s r).addresses = s.addresses ∧
    (mark_email_downloaded s r).nextAddrId = s.nextAddrId ∧
    (mark_email_downloaded s r).participants = s.participants := by
  unfold mark_email_downloaded; split <;> simp

theorem get_or_create_email_address_frame {s : Store} {e : String} :
    ((get_or_create_email_address s e).2.downloaded = s.downloaded) ∧
    ((get_or_create_email_address s e).2.folderUidValidity = s.folderUidValidity) ∧
    ((get_or_create_email_address s e).2.participants = s.participants) := by
  unfold get_or_create_email_address
  by_cases he : e = ""
  · simp [he]
  · simp only [he, if_false]
    cases hfind : s.addresses.find? (fun p => p.2 == pyLower (pyStrip e)) with
    | some p => simp [hfind]
    | none => simp [hfind]

theorem get_or_create_email_frame {s : Store} {uid : Nat}
    {f subject date bt bh : String} {ad : Option String} {mid : Option String} :
    ((get_or_create_email s uid f subject date bt bh ad mid).1.downloaded = s.downloaded) ∧
    ((get_or_create_email s uid f subject date bt bh ad mid).1.folderUidValidity
        = s.folderUidValidity) ∧
    ((get_or_create_email s uid f subject date bt bh ad mid).1.participants = s.participants) := by
  unfold get_or_create_email
  cases mid with
  | none => simp
  | some m => simp

theorem add_participant_downloaded {s : Store} {pk : Nat} {a role : String} :
    (add_participant s pk a role).downloaded = s.downloaded ∧
    (add_participant s pk a role).folderUidValidity = s.folderUidValidity := by
  unfold add_participant
  cases h : get_or_create_email_address s a with
  | mk oid s' =>
      have hf := @get_or_create_email_address_frame s a
      rw [h] at hf
      cases oid with
      | none => exact ⟨hf.1, hf.2.1⟩
      | some id =>
          simp only
          split
          · exact ⟨hf.1, hf.2.1⟩
          · exact ⟨hf.1, hf.2.1⟩

theorem add_participant_nodup {s : Store} {pk : Nat} {a role : String}
    (h : s.participants.Nodup) : (add_participant s pk a role).participants.Nodup := by
  unfold add_participant
  cases hg : get_or_create_email_address s a with
  | mk oid s' =>
      have hf := @get_or_create_email_address_frame s a
      rw [hg] at hf
      have hs' : s'.participants.Nodup := hf.2.2 ▸ h
      cases oid with
      | none => exact hs'
      | some id =>
          simp only
          split
          · exact hs'
          · next hnot =>
              simpa [List.nodup_append, hnot] using hs'

theorem get_uidvalidity_set_self {s : Store} {f : String} {v : Nat} :
    get_uidvalidity (set_uidvalidity s f v) f = some v := by
  unfold get_uidvalidity set_uidvalidity
  simp only
  rw [List.find?_append]
  cases hfind : (s.folderUidValidity.filter (fun p => p.1 != f)).find? (fun p => p.1 == f) with
  | none => simp
  | some p =>
      have := List.find?_some hfind
      have hmem := List.mem_filter.mp (List.mem_of_find?_eq_some hfind)
      simp only [bne_iff_ne, ne_eq, decide_eq_true_eq] at hmem
      simp only [beq_iff_eq] at this
      exact absurd this hmem.2

theorem find?_filter_ne {l : List (String × Nat)} {f g : String} (hfg : f ≠ g) :
    (l.filter (fun p => p.1 != g)).find? (fun p => p.1 == f) = l.find? (fun p => p.1 == f) := by
  induction l with
  | nil => simp
  | cons a l ih =>
      rcases eq_or_ne a.1 f with ha | ha
      · have h1 : (a.1 != g) = true := by rw [ha]; exact bne_iff_ne.mpr hfg
        have h2 : (a.1 == f) = true := by simp [ha]
        simp [List.filter_cons, List.find?_cons, h1, h2]
      · have h2 : (a.1 == f) = false := by simp [ha]
        by_cases hag : a.1 = g
        · have h1 : (a.1 != g) = false := by simp [hag]
          simp [List.filter_cons, List.find?_cons, h1, h2, ih]
        · have h1 : (a.1 != g) = true := bne_iff_ne.mpr hag
          simp [List.filter_cons, List.find?_cons, h1, h2, ih]

theorem get_uidvalidity_set_ne {s : Store} {f g : String} {v : Nat} (hfg : f ≠ g) :
    get_uidvalidity (set_uidvalidity s g v) f = get_uidvalidity s f := by
  unfold get_uidvalidity set_uidvalidity
  simp only
  rw [List.find?_append, find?_filter_ne hfg]
  cases hfind : s.folderUidValidity.find? (fun p => p.1 == f) with
  | none => simp [List.find?_cons, Ne.symm hfg]
  | some p => simp

theorem set_uidvalidity_frame {s : Store} {f : String} {v : Nat} :
    (set_uidvalidity s f v).downloaded = s.downloaded ∧
    (set_uidvalidity s f v).participants = s.participants := by
  unfold set_uidvalidity; exact ⟨rfl, rfl⟩

/-- The UIDVALIDITY check raises exactly when a stored value differs from the
current one; on success it either leaves the store unchanged (value already
recorded) or records the baseline. -/
theorem ensure_uidvalidity_ok {M : Mailbox} {s s' : Store} {f : String}
    (h : ensure_folder_and_uidvalidity M s f = .ok s') :
    s'.downloaded = s.downloaded ∧ s'.participants = s.participants ∧
    get_uidvalidity s' f = some (M.uidvalidity f) ∧
    (∀ g v, get_uidvalidity s g = some v → get_uidvalidity s' g = some v) := by
  unfold ensure_folder_and_uidvalidity at h
  cases hg : get_uidvalidity s f with
  | some stored =>
      rw [hg] at h
      simp only at h
      split at h
      · cases h
      · next hne =>
          cases h
          refine ⟨rfl, rfl, ?_, fun g v hv => hv⟩
          rw [hg]
          congr 1
          omega
  | none =>
      rw [hg] at h
      simp only at h
      cases h
      refine ⟨set_uidvalidity_frame.1, set_uidvalidity_frame.2, get_uidvalidity_set_self, ?_⟩
      intro g v hv
      by_cases hgf : g = f
      · rw [hgf] at hv; rw [hv] at hg; cases hg
      · rw [get_uidvalidity_set_ne hgf]; exact hv

theorem ensure_uidvalidity_error {M : Mailbox} {s : Store} {f : String}
    (h : ensure_folder_and_uidvalidity M s f = .error ()) :
    ∃ v, get_uidvalidity s f = some v ∧ v ≠ M.uidvalidity f := by
  unfold ensure_folder_and_uidvalidity at h
  cases hg : get_uidvalidity s f with
  | some stored =>
      rw [hg] at h
      simp only at h
      split at h
      · next hne => exact ⟨stored, rfl, hne⟩
      · cases h
  | none => rw [hg] at h; cases h

theorem ensure_uidvalidity_error_of_skew {M : Mailbox} {s : Store} {f : String} {v : Nat}
    (hv : get_uidvalidity s f = some v) (hne : v ≠ M.uidvalidity f) :
    ensure_folder_and_uidvalidity M s f = .error () := by
  unfold ensure_folder_and_uidvalidity
  rw [hv]
  simp [hne]

/-- A generic preservation principle for left folds. -/
theorem foldl_invariant {α β : Type} {P : α → Prop} {g : α → β → α}
    (h : ∀ a b, P a → P (g a b)) : ∀ (l : List β) (a : α), P a → P (l.foldl g a) := by
  intro l
  induction l with
  | nil => intro a ha; exact ha
  | cons b l ih => intro a ha; exact ih _ (h a b ha)

/-! ## Effect lemmas for per-message processing -/

/-- The participant-linking folds touch only the address and participant
tables, and preserve uniqueness of participation triples. -/
theorem add_fold_frame (pk : Nat) (role : String) (l : List String) (t : Store) :
    ((l.foldl (fun u a => add_participant u pk a role) t).downloaded = t.downloaded) ∧
    ((l.foldl (fun u a => add_participant u pk a role) t).folderUidValidity
        = t.folderUidValidity) ∧
    (t.participants.Nodup → (l.foldl (fun u a => add_participant u pk a role) t).participants.Nodup) := by
  induction l generalizing t with
  | nil => exact ⟨rfl, rfl, id⟩
  | cons a l ih =>
      simp only [List.foldl_cons]
      refine ⟨?_, ?_, ?_⟩
      · rw [(ih (add_participant t pk a role)).1, (add_participant_downloaded).1]
      · rw [(ih (add_participant t pk a role)).2.1, (add_participant_downloaded).2]
      · intro h
        exact (ih (add_participant t pk a role)).2.2 (add_participant_nodup h)

/-- The effect skeleton of one iteration of the per-message loop: the raw
table only grows, and only by the processed message's row; the UIDVALIDITY
table is untouched; the retry queue only grows, and only by the processed
message's `(uid, folder)`; participation triples stay unique. -/
theorem process_message_spec (fails : String → Nat → Bool) (folder : String)
    (existing : List Nat) (sq : Store × List (Nat × String)) (m : Msg) :
    (∀ r ∈ sq.1.downloaded, r ∈ (process_message fails folder existing sq m).1.downloaded) ∧
    (∀ r ∈ (process_message fails folder existing sq m).1.downloaded,
        r ∈ sq.1.downloaded ∨ r = rawRowOf folder m) ∧
    ((process_message fails folder existing sq m).1.folderUidValidity
        = sq.1.folderUidValidity) ∧
    (∀ e ∈ sq.2, e ∈ (process_message fails folder existing sq m).2) ∧
    (∀ e ∈ (process_message fails folder existing sq m).2,
        e ∈ sq.2 ∨ e = (m.uid, folder)) ∧
    (sq.1.participants.Nodup → (process_message fails folder existing sq m).1.participants.Nodup) := by
  obtain ⟨s, q⟩ := sq
  simp only [process_message]
  by_cases hex : m.uid ∈ existing
  · rw [if_pos hex]
    exact ⟨fun r h => h, fun r h => Or.inl h, rfl, fun e h => h, fun e h => Or.inl h, id⟩
  · rw [if_neg hex]
    by_cases hfl : fails folder m.uid = true
    · rw [if_pos hfl]
      refine ⟨fun r h => h, fun r h => Or.inl h, rfl, fun e h => by simp [h], ?_, id⟩
      intro e he
      rcases List.mem_append.mp he with h | h
      · exact Or.inl h
      · simp only [List.mem_singleton] at h
        exact Or.inr h
    · rw [if_neg hfl]
      cases hge : get_or_create_email (mark_email_downloaded s (rawRowOf folder m))
          m.uid folder m.subject m.date m.text m.html m.attachments.head? m.messageId with
      | mk s2 opk =>
          have hgf := @get_or_create_email_frame (mark_email_downloaded s (rawRowOf folder m))
            m.uid folder m.subject m.date m.text m.html m.attachments.head? m.messageId
          rw [hge] at hgf
          have hmf := @mark_email_downloaded_frame s (rawRowOf folder m)
          cases opk with
          | none =>
              dsimp only
              refine ⟨?_, ?_, ?_, ?_, ?_, ?_⟩
              · intro r h
                rw [hgf.1]
                exact mark_downloaded_mem h
              · intro r h
                rw [hgf.1] at h
                exact mark_downloaded_cases h
              · rw [hgf.2.1, hmf.1]
              · intro e h; simp [h]
              · intro e he
                rcases List.mem_append.mp he with h | h
                · exact Or.inl h
                · simp only [List.mem_singleton] at h
                  exact Or.inr h
              · intro h
                rw [hgf.2.2, hmf.2.2.2.2.2]
                exact h
          | some pk =>
              dsimp only
              set s3 := add_participant s2 pk m.sender "from" with hs3
              have haf := @add_participant_downloaded s2 pk m.sender "from"
              have h4 := add_fold_frame pk "to" (parse_recipients (.list m.tos)) s3
              set s4 := (parse_recipients (.list m.tos)).foldl
                (fun t a => add_participant t pk a "to") s3 with hs4
              have h5 := add_fold_frame pk "cc" (parse_recipients (.list m.cc)) s4
              set s5 := (parse_recipients (.list m.cc)).foldl
                (fun t a => add_participant t pk a "cc") s4 with hs5
              have h6 := add_fold_frame pk "bcc" (parse_recipients (.list m.bcc)) s5
              set s6 := (parse_recipients (.list m.bcc)).foldl
                (fun t a => add_participant t pk a "bcc") s5 with hs6
              have hdl : s6.downloaded = (mark_email_downloaded s (rawRowOf folder m)).downloaded := by
                rw [h6.1, h5.1, h4.1, haf.1, hgf.1]
              have hfv : s6.folderUidValidity = s.folderUidValidity := by
                rw [h6.2.1, h5.2.1, h4.2.1, haf.2, hgf.2.1, hmf.1]
              refine ⟨?_, ?_, ?_, fun e h => h, fun e h => Or.inl h, ?_⟩
              · intro r h
                rw [hdl]
                exact mark_downloaded_mem h
              · intro r h
                rw [hdl] at h
                exact mark_downloaded_cases h
              · exact hfv
              · intro h
                apply h6.2.2
                apply h5.2.2
                apply h4.2.2
                apply add_participant_nodup
                rw [hgf.2.2, hmf.2.2.2.2.2]
                exact h

/-- Processing a message whose uid is in the pre-computed `existing` set is a
no-op (`continue`). -/
theorem process_message_skip {fails : String → Nat → Bool} {folder : String}
    {existing : List Nat} {sq : Store × List (Nat × String)} {m : Msg}
    (h : m.uid ∈ existing) : process_message fails folder existing sq m = sq := by
  obtain ⟨s, q⟩ := sq
  simp only [process_message]
  rw [if_pos h]

/-- A failing message is queued, with no store change. -/
theorem process_message_fail {fails : String → Nat → Bool} {folder : String}
    {existing : List Nat} {sq : Store × List (Nat × String)} {m : Msg}
    (hex : m.uid ∉ existing) (hfl : fails folder m.uid = true) :
    process_message fails folder existing sq m = (sq.1, sq.2 ++ [(m.uid, folder)]) := by
  obtain ⟨s, q⟩ := sq
  simp only [process_message]
  rw [if_neg hex, if_pos hfl]

/-- A non-failing new message is marked downloaded (both on the crash-free
path and when the Message-ID lookup raises after the raw insert). -/
theorem process_message_marks {fails : String → Nat → Bool} {folder : String}
    {existing : List Nat} {sq : Store × List (Nat × String)} {m : Msg}
    (hex : m.uid ∉ existing) (hfl : fails folder m.uid = false) :
    is_email_downloaded (process_message fails folder existing sq m).1 m.uid folder = true := by
  obtain ⟨s, q⟩ := sq
  simp only [process_message]
  rw [if_neg hex, if_neg (by simp [hfl])]
  cases hge : get_or_create_email (mark_email_downloaded s (rawRowOf folder m))
      m.uid folder m.subject m.date m.text m.html m.attachments.head? m.messageId with
  | mk s2 opk =>
      have hgf := @get_or_create_email_frame (mark_email_downloaded s (rawRowOf folder m))
        m.uid folder m.subject m.date m.text m.html m.attachments.head? m.messageId
      rw [hge] at hgf
      have hmark : is_email_downloaded s2 m.uid folder = true := by
        rw [is_email_downloaded_iff, hgf.1]
        have := @mark_downloaded_self s (rawRowOf folder m)
        rw [is_email_downloaded_iff] at this
        exact this
      cases opk with
      | none => simpa using hmark
      | some pk =>
          dsimp only
          rw [is_email_downloaded_iff] at hmark ⊢
          rw [(add_fold_frame pk "bcc" (parse_recipients (.list m.bcc))
                ((parse_recipients (.list m.cc)).foldl (fun t a => add_participant t pk a "cc")
                  ((parse_recipients (.list m.tos)).foldl (fun t a => add_participant t pk a "to")
                    (add_participant s2 pk m.sender "from")))).1,
            (add_fold_frame pk "cc" (parse_recipients (.list m.cc))
                ((parse_recipients (.list m.tos)).foldl (fun t a => add_participant t pk a "to")
                  (add_participant s2 pk m.sender "from"))).1,
            (add_fold_frame pk "to" (parse_recipients (.list m.tos))
                (add_participant s2 pk m.sender "from")).1,
            (@add_participant_downloaded s2 pk m.sender "from").1]
          exact hmark

/-! ## Effect lemmas for folder attempts -/

/-- Fold preservation where the step property may depend on list membership. -/
theorem foldl_invariant_mem {α β : Type} {P : α → Prop} {g : α → β → α} :
    ∀ (l : List β), (∀ a, ∀ b ∈ l, P a → P (g a b)) → ∀ a, P a → P (l.foldl g a) := by
  intro l
  induction l with
  | nil => intro _ a ha; exact ha
  | cons b l ih =>
      intro h a ha
      exact ih (fun a' b' hb' => h a' b' (List.mem_cons_of_mem _ hb')) _
        (h a b (List.mem_cons_self _ _) ha)

theorem mem_get_existing_uids {s : Store} {f : String} {u : Nat} :
    u ∈ get_existing_uids s f ↔ ∃ r ∈ s.downloaded, r.folder = f ∧ r.uid = u := by
  unfold get_existing_uids
  constructor
  · intro h
    obtain ⟨r, hr, hu⟩ := List.mem_map.mp h
    have := List.mem_filter.mp hr
    exact ⟨r, this.1, by simpa using this.2, hu⟩
  · rintro ⟨r, hr, hf, hu⟩
    exact hu ▸ List.mem_map_of_mem _ (List.mem_filter.mpr ⟨hr, by simp [hf]⟩)

theorem mem_fetchMsgs {M : Mailbox} {f : String} {qy : FetchQuery} {m : Msg} :
    m ∈ fetchMsgs M f qy ↔ m ∈ M.msgs f ∧ qy.requests m.uid = true := by
  unfold fetchMsgs
  exact List.mem_filter

theorem split_chunks_sub {k : Nat} :
    ∀ (fuel : Nat) (l : List Nat), ∀ b ∈ split_chunks fuel l k, ∀ u ∈ b, u ∈ l := by
  intro fuel
  induction fuel with
  | zero =>
      intro l b hb
      cases l with
      | nil => cases hb
      | cons a l' =>
          cases k with
          | zero => cases hb
          | succ k' => cases hb
  | succ fuel ih =>
      intro l b hb u hu
      cases l with
      | nil => cases hb
      | cons a l' =>
          cases k with
          | zero => cases hb
          | succ k' =>
              rw [split_chunks] at hb
              rcases List.mem_cons.mp hb with rfl | hb
              · exact List.mem_of_mem_take hu
              · exact List.mem_of_mem_drop (ih _ b hb u hu)

theorem split_into_batches_sub {k : Nat} {l b : List Nat}
    (hb : b ∈ split_into_batches l k) : ∀ u ∈ b, u ∈ l :=
  split_chunks_sub l.length l b hb

theorem split_chunks_cover {k : Nat} (hk : k ≠ 0) :
    ∀ (fuel : Nat) (l : List Nat), l.length ≤ fuel →
      ∀ u ∈ l, ∃ b ∈ split_chunks fuel l k, u ∈ b := by
  intro fuel
  induction fuel with
  | zero =>
      intro l hl u hu
      have : l = [] := List.eq_nil_of_length_eq_zero (Nat.le_zero.mp hl)
      subst this
      cases hu
  | succ fuel ih =>
      intro l hl u hu
      cases l with
      | nil => cases hu
      | cons a l' =>
          cases k with
          | zero => exact absurd rfl hk
          | succ k' =>
              rw [split_chunks]
              rcases List.mem_append.mp ((List.take_append_drop (k' + 1) (a :: l')) ▸ hu)
                with h | h
              · exact ⟨_, List.mem_cons_self _ _, h⟩
              · have hlen : ((a :: l').drop (k' + 1)).length ≤ fuel := by
                  simp only [List.length_drop, List.length_cons] at hl ⊢
                  omega
                obtain ⟨b, hb, hub⟩ := ih _ hlen u h
                exact ⟨b, List.mem_cons_of_mem _ hb, hub⟩

theorem split_into_batches_cover {k : Nat} (hk : k ≠ 0) {l : List Nat} {u : Nat}
    (hu : u ∈ l) : ∃ b ∈ split_into_batches l k, u ∈ b :=
  split_chunks_cover hk l.length l le_rfl u hu

/-- Effect skeleton of one batch-loop iteration. -/
theorem attempt_step_spec (M : Mailbox) (fails : String → Nat → Bool) (f : String)
    (existing : List Nat) (acc : AttemptOut) (batch : List Nat) :
    (∀ r ∈ acc.store.downloaded, r ∈ (attempt_step M fails f existing acc batch).store.downloaded) ∧
    (∀ r ∈ (attempt_step M fails f existing acc batch).store.downloaded,
        r ∈ acc.store.downloaded ∨ ∃ m ∈ M.msgs f, r = rawRowOf f m) ∧
    ((attempt_step M fails f existing acc batch).store.folderUidValidity
        = acc.store.folderUidValidity) ∧
    (∀ e ∈ acc.queue, e ∈ (attempt_step M fails f existing acc batch).queue) ∧
    (∀ e ∈ (attempt_step M fails f existing acc batch).queue,
        e ∈ acc.queue ∨ ∃ m ∈ M.msgs f, e = (m.uid, f) ∧ m.uid ∈ batch) ∧
    (acc.store.participants.Nodup →
        (attempt_step M fails f existing acc batch).store.participants.Nodup) ∧
    (∀ fe ∈ (attempt_step M fails f existing acc batch).fetches,
        fe ∈ acc.fetches ∨ fe = (f, FetchQuery.uidIn batch)) := by
  unfold attempt_step
  split
  · exact ⟨fun r h => h, fun r h => Or.inl h, rfl, fun e h => h, fun e h => Or.inl h, id,
      fun fe h => Or.inl h⟩
  · have key := @foldl_invariant_mem (Store × List (Nat × String)) Msg
      (fun sq =>
        (∀ r ∈ acc.store.downloaded, r ∈ sq.1.downloaded) ∧
        (∀ r ∈ sq.1.downloaded,
            r ∈ acc.store.downloaded ∨ ∃ m ∈ M.msgs f, r = rawRowOf f m) ∧
        (sq.1.folderUidValidity = acc.store.folderUidValidity) ∧
        (∀ e ∈ acc.queue, e ∈ sq.2) ∧
        (∀ e ∈ sq.2, e ∈ acc.queue ∨ ∃ m ∈ M.msgs f, e = (m.uid, f) ∧ m.uid ∈ batch) ∧
        (acc.store.participants.Nodup → sq.1.participants.Nodup))
      (process_message fails f existing)
      (fetchMsgs M f (.uidIn batch))
      (by
        intro sq m hm hP
        obtain ⟨hmm, hreq⟩ := mem_fetchMsgs.mp hm
        have hspec := process_message_spec fails f existing sq m
        refine ⟨?_, ?_, ?_, ?_, ?_, ?_⟩
        · intro r hr
          exact hspec.1 r (hP.1 r hr)
        · intro r hr
          rcases hspec.2.1 r hr with h | h
          · exact hP.2.1 r h
          · exact Or.inr ⟨m, hmm, h⟩
        · rw [hspec.2.2.1, hP.2.2.1]
        · intro e he
          exact hspec.2.2.2.1 e (hP.2.2.2.1 e he)
        · intro e he
          rcases hspec.2.2.2.2.1 e he with h | h
          · exact hP.2.2.2.2.1 e h
          · refine Or.inr ⟨m, hmm, h, ?_⟩
            simpa [FetchQuery.requests] using hreq
        · intro h
          exact hspec.2.2.2.2.2 (hP.2.2.2.2.2 h))
      (acc.store, acc.queue)
      ⟨fun r h => h, fun r h => Or.inl h, rfl, fun e h => h, fun e h => Or.inl h, id⟩
    refine ⟨key.1, key.2.1, key.2.2.1, key.2.2.2.1, key.2.2.2.2.1, key.2.2.2.2.2, ?_⟩
    intro fe hfe
    rcases List.mem_append.mp hfe with h | h
    · exact Or.inl h
    · simp only [List.mem_singleton] at h
      exact Or.inr h

/-- Processing a message leaves every already-stored key stored. -/
theorem process_message_keeps {fails : String → Nat → Bool} {f g : String} {u : Nat}
    {existing : List Nat} (t : Store × List (Nat × String)) (b : Msg)
    (h : is_email_downloaded t.1 u g = true) :
    is_email_downloaded (process_message fails f existing t b).1 u g = true := by
  rw [is_email_downloaded_iff] at h ⊢
  obtain ⟨r, hr, h1, h2⟩ := h
  exact ⟨r, (process_message_spec fails f existing t b).1 r hr, h1, h2⟩

/-- A new, non-failing message that occurs in the processed list ends up
marked downloaded by the per-message fold. -/
theorem process_fold_marks {fails : String → Nat → Bool} {f : String}
    {existing : List Nat} {msgs : List Msg} {m : Msg}
    (hm : m ∈ msgs) (hfl : fails f m.uid = false) (hnex : m.uid ∉ existing) :
    ∀ sq, is_email_downloaded
      (msgs.foldl (process_message fails f existing) sq).1 m.uid f = true := by
  induction msgs with
  | nil => cases hm
  | cons a l ih =>
      intro sq
      rcases List.mem_cons.mp hm with rfl | hm'
      · simp only [List.foldl_cons]
        have hmk : is_email_downloaded (process_message fails f existing sq m).1 m.uid f
            = true := process_message_marks hnex hfl
        exact foldl_invariant (fun t b => process_message_keeps t b) l _ hmk
      · simp only [List.foldl_cons]
        exact ih hm' _

/-- A non-skipped, non-failing, not-yet-stored message of a batch ends up
marked downloaded by the batch-loop iteration that fetches its batch. -/
theorem attempt_step_marks {M : Mailbox} {fails : String → Nat → Bool} {f : String}
    {existing : List Nat} {acc : AttemptOut} {batch : List Nat} {m : Msg}
    (hm : m ∈ M.msgs f) (hfl : fails f m.uid = false) (hnex : m.uid ∉ existing)
    (hb : m.uid ∈ batch) :
    is_email_downloaded (attempt_step M fails f existing acc batch).store m.uid f = true := by
  unfold attempt_step
  split
  · next hall =>
      exact absurd (by simpa using (List.all_eq_true.mp hall) m.uid hb) hnex
  · have hmem : m ∈ fetchMsgs M f (.uidIn batch) :=
      mem_fetchMsgs.mpr ⟨hm, by simpa [FetchQuery.requests] using hb⟩
    exact process_fold_marks hmem hfl hnex (acc.store, acc.queue)

/-- Every uid enumerated by the attempt's first fetch satisfies the attempt's
initial UID predicate. -/
theorem mem_allUids {M : Mailbox} {f : String} {qy : FetchQuery} {u : Nat}
    (h : u ∈ (fetchMsgs M f qy).map (fun m => m.uid)) : qy.requests u = true := by
  obtain ⟨m, hm, hu⟩ := List.mem_map.mp h
  exact hu ▸ (mem_fetchMsgs.mp hm).2

/-- Effect skeleton of a whole folder attempt: raw rows only grow and only by
this folder's fetched messages; UIDVALIDITY is untouched; the queue grows only
by `(uid, folder)` pairs whose uid satisfies the attempt's initial predicate;
participation stays duplicate-free; every issued fetch is for this folder and
requests only uids allowed by the initial predicate. -/
theorem folder_attempt_spec (M : Mailbox) (fails : String → Nat → Bool) (f : String)
    (s : Store) (q : List (Nat × String)) :
    (∀ r ∈ s.downloaded, r ∈ (folder_attempt M fails f s q).store.downloaded) ∧
    (∀ r ∈ (folder_attempt M fails f s q).store.downloaded,
        r ∈ s.downloaded ∨ ∃ m ∈ M.msgs f, r = rawRowOf f m) ∧
    ((folder_attempt M fails f s q).store.folderUidValidity = s.folderUidValidity) ∧
    (∀ e ∈ q, e ∈ (folder_attempt M fails f s q).queue) ∧
    (∀ e ∈ (folder_attempt M fails f s q).queue,
        e ∈ q ∨ ∃ m ∈ M.msgs f, e = (m.uid, f) ∧ (initial_query s f).requests m.uid = true) ∧
    (s.participants.Nodup → (folder_attempt M fails f s q).store.participants.Nodup) ∧
    (∀ fe ∈ (folder_attempt M fails f s q).fetches,
        fe.1 = f ∧ ∀ u, fe.2.requests u = true → (initial_query s f).requests u = true) := by
  unfold folder_attempt
  apply @foldl_invariant_mem AttemptOut (List Nat)
    (fun acc =>
      (∀ r ∈ s.downloaded, r ∈ acc.store.downloaded) ∧
      (∀ r ∈ acc.store.downloaded, r ∈ s.downloaded ∨ ∃ m ∈ M.msgs f, r = rawRowOf f m) ∧
      (acc.store.folderUidValidity = s.folderUidValidity) ∧
      (∀ e ∈ q, e ∈ acc.queue) ∧
      (∀ e ∈ acc.queue,
          e ∈ q ∨ ∃ m ∈ M.msgs f, e = (m.uid, f) ∧ (initial_query s f).requests m.uid = true) ∧
      (s.participants.Nodup → acc.store.participants.Nodup) ∧
      (∀ fe ∈ acc.fetches,
          fe.1 = f ∧ ∀ u, fe.2.requests u = true → (initial_query s f).requests u = true))
    (attempt_step M fails f (get_existing_uids s f))
  · intro acc b hb hP
    have hstep := attempt_step_spec M fails f (get_existing_uids s f) acc b
    have hbsub : ∀ u ∈ b, (initial_query s f).requests u = true := by
      intro u hu
      exact mem_allUids (split_into_batches_sub hb u hu)
    refine ⟨?_, ?_, ?_, ?_, ?_, ?_, ?_⟩
    · intro r hr
      exact hstep.1 r (hP.1 r hr)
    · intro r hr
      rcases hstep.2.1 r hr with h | h
      · exact hP.2.1 r h
      · exact Or.inr h
    · rw [hstep.2.2.1, hP.2.2.1]
    · intro e he
      exact hstep.2.2.2.1 e (hP.2.2.2.1 e he)
    · intro e he
      rcases hstep.2.2.2.2.1 e he with h | h
      · exact hP.2.2.2.2.1 e h
      · obtain ⟨m, hm, he', hub⟩ := h
        exact Or.inr ⟨m, hm, he', hbsub m.uid hub⟩
    · intro h
      exact hstep.2.2.2.2.2.1 (hP.2.2.2.2.2.1 h)
    · intro fe hfe
      rcases hstep.2.2.2.2.2.2 fe hfe with h | h
      · exact hP.2.2.2.2.2.2 fe h
      · subst h
        exact ⟨rfl, fun u hu => hbsub u (by simpa [FetchQuery.requests] using hu)⟩
  · refine ⟨fun r h => h, fun r h => Or.inl h, rfl, fun e h => h, fun e h => Or.inl h, id, ?_⟩
    intro fe hfe
    simp only [List.mem_singleton] at hfe
    subst hfe
    exact ⟨rfl, fun u hu => hu⟩

/-- With no injected per-message failures, every message of the folder whose
uid satisfies the attempt's initial predicate is stored when the attempt
completes. -/
theorem folder_attempt_marks (M : Mailbox) (fails : String → Nat → Bool) (f : String)
    (s : Store) (q : List (Nat × String)) (hf : ∀ u, fails f u = false)
    {m : Msg} (hm : m ∈ M.msgs f) (hrq : (initial_query s f).requests m.uid = true) :
    is_email_downloaded (folder_attempt M fails f s q).store m.uid f = true := by
  by_cases hex : m.uid ∈ get_existing_uids s f
  · obtain ⟨r, hr, h1, h2⟩ := mem_get_existing_uids.mp hex
    rw [is_email_downloaded_iff]
    exact ⟨r, (folder_attempt_spec M fails f s q).1 r hr, h2, h1⟩
  · have hin : m.uid ∈ (fetchMsgs M f (initial_query s f)).map (fun m => m.uid) :=
      List.mem_map_of_mem _ (mem_fetchMsgs.mpr ⟨hm, hrq⟩)
    obtain ⟨b, hb, hub⟩ := @split_into_batches_cover 10 (by omega) _ _ hin
    unfold folder_attempt
    have aux : ∀ (bs : List (List Nat)) (acc : AttemptOut),
        ((∃ b' ∈ bs, m.uid ∈ b') ∨ is_email_downloaded acc.store m.uid f = true) →
        is_email_downloaded
          ((bs.foldl (attempt_step M fails f (get_existing_uids s f)) acc)).store m.uid f
          = true := by
      intro bs
      induction bs with
      | nil =>
          intro acc h
          rcases h with ⟨b', hb', _⟩ | h
          · cases hb'
          · exact h
      | cons b0 bs ih =>
          intro acc h
          simp only [List.foldl_cons]
          rcases h with ⟨b', hb', hub'⟩ | h
          · rcases List.mem_cons.mp hb' with rfl | hb''
            · exact ih _ (Or.inr (attempt_step_marks hm (hf m.uid) hex hub'))
            · exact ih _ (Or.inl ⟨b', hb'', hub'⟩)
          · refine ih _ (Or.inr ?_)
            rw [is_email_downloaded_iff] at h ⊢
            obtain ⟨r, hr, h1, h2⟩ := h
            exact ⟨r,
              (attempt_step_spec M fails f (get_existing_uids s f) acc b0).1 r hr, h1, h2⟩
    exact aux _ _ (Or.inl ⟨b, hb, hub⟩)

/-- With no injected per-message failures, the folder is quiet when the
attempt completes: every message uid is at most the new stored maximum. -/
theorem folder_attempt_post_quiet (M : Mailbox) (fails : String → Nat → Bool)
    (f : String) (s : Store) (q : List (Nat × String)) (hf : ∀ u, fails f u = false) :
    folderQuiet M (folder_attempt M fails f s q).store f := by
  have hspec := folder_attempt_spec M fails f s q
  unfold folderQuiet
  cases hmax2 : get_max_uid (folder_attempt M fails f s q).store f with
  | some w =>
      intro m hm
      by_cases hrq : (initial_query s f).requests m.uid = true
      · have hdl := folder_attempt_marks M fails f s q hf hm hrq
        rw [is_email_downloaded_iff] at hdl
        obtain ⟨r, hr, h1, h2⟩ := hdl
        obtain ⟨v, hv, hle2⟩ := get_max_uid_le_of_mem hr h2
        rw [hmax2] at hv
        injection hv with hv
        omega
      · unfold initial_query at hrq
        cases hmax : get_max_uid s f with
        | none =>
            rw [hmax] at hrq
            simp [FetchQuery.requests] at hrq
        | some V =>
            rw [hmax] at hrq
            simp only [FetchQuery.requests, decide_eq_true_eq] at hrq
            obtain ⟨w', hw', hVw⟩ := get_max_uid_mono hspec.1 hmax
            rw [hmax2] at hw'
            injection hw' with hw'
            omega
  | none =>
      rw [List.eq_nil_iff_forall_not_mem]
      intro m hm
      by_cases hrq : (initial_query s f).requests m.uid = true
      · have hdl := folder_attempt_marks M fails f s q hf hm hrq
        rw [is_email_downloaded_iff] at hdl
        obtain ⟨r, hr, h1, h2⟩ := hdl
        obtain ⟨v, hv, _⟩ := get_max_uid_le_of_mem hr h2
        rw [hmax2] at hv
        cases hv
      · unfold initial_query at hrq
        cases hmax : get_max_uid s f with
        | none =>
            rw [hmax] at hrq
            simp [FetchQuery.requests] at hrq
        | some V =>
            obtain ⟨w', hw', _⟩ := get_max_uid_mono hspec.1 hmax
            rw [hmax2] at hw'
            cases hw'

/-- A quiet folder's attempt is a no-op: the incremental fetch returns no
messages, every batch is empty, and the store and queue are returned
unchanged (only the one enumeration fetch was issued). -/
theorem folder_attempt_of_quiet {M : Mailbox} {fails : String → Nat → Bool}
    {f : String} {s : Store} {q : List (Nat × String)} (hq : folderQuiet M s f) :
    folder_attempt M fails f s q = ⟨s, q, [(f, initial_query s f)]⟩ := by
  have hempty : fetchMsgs M f (initial_query s f) = [] := by
    unfold folderQuiet at hq
    cases hmax : get_max_uid s f with
    | some v =>
        rw [hmax] at hq
        unfold fetchMsgs initial_query
        rw [hmax]
        refine List.filter_eq_nil_iff.mpr ?_
        intro m hm
        simp only [FetchQuery.requests, decide_eq_true_eq, not_lt]
        exact hq m hm
    | none =>
        rw [hmax] at hq
        have hq' : M.msgs f = [] := hq
        unfold fetchMsgs
        rw [hq']
        simp
  unfold folder_attempt
  dsimp only
  rw [hempty]
  simp [split_into_batches, split_chunks]



/-! ## The bounded per-folder retry loop -/

/-- When the first attempt does not raise, the retry loop is one successful
folder attempt: no sleeps, not recorded as failed. -/
theorem attempt_loop_ok {M : Mailbox} {fails folderFails : String → Nat → Bool}
    {f : String} {s : Store} {q : List (Nat × String)} (h1 : folderFails f 1 = false) :
    attempt_loop M fails folderFails f 0 s q =
      { store := (folder_attempt M fails f s q).store,
        queue := (folder_attempt M fails f s q).queue, failed := false,
        fetches := (folder_attempt M fails f s q).fetches, sleeps := [],
        attemptsMade := 1 } := by
  show attempt_loop_go M fails folderFails f 3 0 s q = _
  rw [show (3:Nat) = 2 + 1 from rfl]
  unfold attempt_loop_go
  rw [if_pos (by omega : (0:Nat) < 3), if_neg (by simp [h1])]

/-- When all three attempts raise, the loop makes exactly three attempts with
two 5-second sleeps between them, changes nothing, and reports failure. -/
theorem attempt_loop_exhausted {M : Mailbox} {fails folderFails : String → Nat → Bool}
    {f : String} {s : Store} {q : List (Nat × String)}
    (h1 : folderFails f 1 = true) (h2 : folderFails f 2 = true)
    (h3 : folderFails f 3 = true) :
    attempt_loop M fails folderFails f 0 s q =
      { store := s, queue := q, failed := true, fetches := [], sleeps := [5, 5],
        attemptsMade := 3 } := by
  show attempt_loop_go M fails folderFails f 3 0 s q = _
  rw [show (3:Nat) = 2 + 1 from rfl]
  unfold attempt_loop_go
  rw [if_pos (by omega : (0:Nat) < 3), if_pos (by simpa using h1),
    if_neg (by omega : ¬ (0:Nat) + 1 = 3)]
  rw [show (2:Nat) = 1 + 1 from rfl]
  unfold attempt_loop_go
  rw [if_pos (by omega : (0:Nat) + 1 < 3), if_pos (by simpa using h2),
    if_neg (by omega : ¬ (0:Nat) + 1 + 1 = 3)]
  rw [show (1:Nat) = 0 + 1 from rfl]
  unfold attempt_loop_go
  rw [if_pos (by omega : (0:Nat) + 1 + 1 < 3), if_pos (by simpa using h3),
    if_pos (by omega : (0:Nat) + 1 + 1 + 1 = 3)]

/-- Whatever the injected folder-level failures, the retry loop either leaves
the store and queue untouched (every made attempt raised) or performs exactly
one folder attempt from the unchanged store (failed attempts have no effect,
so the succeeding attempt starts from the original state). -/
theorem attempt_loop_cases (M : Mailbox) (fails folderFails : String → Nat → Bool)
    (f : String) :
    ∀ (n : Nat) (s : Store) (q : List (Nat × String)),
      ((attempt_loop M fails folderFails f n s q).store = s ∧
       (attempt_loop M fails folderFails f n s q).queue = q ∧
       (attempt_loop M fails folderFails f n s q).fetches = []) ∨
      ((attempt_loop M fails folderFails f n s q).store = (folder_attempt M fails f s q).store ∧
       (attempt_loop M fails folderFails f n s q).queue = (folder_attempt M fails f s q).queue ∧
       (attempt_loop M fails folderFails f n s q).fetches
          = (folder_attempt M fails f s q).fetches) := by
  have H : ∀ (fuel n : Nat) (s : Store) (q : List (Nat × String)),
      ((attempt_loop_go M fails folderFails f fuel n s q).store = s ∧
       (attempt_loop_go M fails folderFails f fuel n s q).queue = q ∧
       (attempt_loop_go M fails folderFails f fuel n s q).fetches = []) ∨
      ((attempt_loop_go M fails folderFails f fuel n s q).store
          = (folder_attempt M fails f s q).store ∧
       (attempt_loop_go M fails folderFails f fuel n s q).queue
          = (folder_attempt M fails f s q).queue ∧
       (attempt_loop_go M fails folderFails f fuel n s q).fetches
          = (folder_attempt M fails f s q).fetches) := by
    intro fuel
    induction fuel with
    | zero =>
        intro n s q
        left
        exact ⟨rfl, rfl, rfl⟩
    | succ fuel ih =>
        intro n s q
        unfold attempt_loop_go
        by_cases hlt : n < 3
        · rw [if_pos hlt]
          by_cases hff : folderFails f (n + 1) = true
          · rw [if_pos hff]
            by_cases heq : n + 1 = 3
            · rw [if_pos heq]
              left
              exact ⟨rfl, rfl, rfl⟩
            · rw [if_neg heq]
              dsimp only
              rcases ih (n + 1) s q with ⟨ha, hb, hc⟩ | ⟨ha, hb, hc⟩
              · left; exact ⟨ha, hb, hc⟩
              · right; exact ⟨ha, hb, hc⟩
          · rw [if_neg hff]
            right
            exact ⟨rfl, rfl, rfl⟩
        · rw [if_neg hlt]
          left
          exact ⟨rfl, rfl, rfl⟩
  intro n s q
  exact H (3 - n) n s q

/-! ## The folder loop -/

theorem get_uidvalidity_eq_of {s t : Store} (h : t.folderUidValidity = s.folderUidValidity)
    (g : String) : get_uidvalidity t g = get_uidvalidity s g := by
  unfold get_uidvalidity
  rw [h]

/-- Unfolding equation: a denylisted folder is skipped. -/
theorem folder_loop_cons_skip {M : Mailbox} {fails folderFails : String → Nat → Bool}
    {f : String} {fs : List String} {s : Store} {q : List (Nat × String)} {ff : List String}
    (hskip : pyLower f ∈ skip_folders) :
    folder_loop M fails folderFails (f :: fs) s q ff
      = folder_loop M fails folderFails fs s q ff := by
  conv_lhs => unfold folder_loop
  rw [if_pos hskip]

/-- Unfolding equation: a UIDVALIDITY mismatch breaks the loop on the spot —
the mismatched folder is not processed, no later folder is visited, and the
store, queue and failed-folder list are exactly those at detection time. -/
theorem folder_loop_skew {M : Mailbox} {fails folderFails : String → Nat → Bool}
    {f : String} {fs : List String} {s : Store} {q : List (Nat × String)} {ff : List String}
    (hskip : pyLower f ∉ skip_folders)
    (herr : ensure_folder_and_uidvalidity M s f = .error ()) :
    folder_loop M fails folderFails (f :: fs) s q ff =
      { store := s, queue := q, failedFolders := ff, fetches := [], sleeps := [],
        halted := some f } := by
  unfold folder_loop
  rw [if_neg hskip, herr]

/-- Unfolding equation: a folder whose UIDVALIDITY check passes is processed
by the attempt loop, then the loop continues with the remaining folders. -/
theorem folder_loop_cons_ok {M : Mailbox} {fails folderFails : String → Nat → Bool}
    {f : String} {fs : List String} {s s' : Store} {q : List (Nat × String)} {ff : List String}
    (hskip : pyLower f ∉ skip_folders)
    (hok : ensure_folder_and_uidvalidity M s f = .ok s') :
    folder_loop M fails folderFails (f :: fs) s q ff =
      { store := (folder_loop M fails folderFails fs
            (attempt_loop M fails folderFails f 0 s' q).store
            (attempt_loop M fails folderFails f 0 s' q).queue
            (if (attempt_loop M fails folderFails f 0 s' q).failed then ff ++ [f] else ff)).store,
        queue := (folder_loop M fails folderFails fs
            (attempt_loop M fails folderFails f 0 s' q).store
            (attempt_loop M fails folderFails f 0 s' q).queue
            (if (attempt_loop M fails folderFails f 0 s' q).failed then ff ++ [f] else ff)).queue,
        failedFolders := (folder_loop M fails folderFails fs
            (attempt_loop M fails folderFails f 0 s' q).store
            (attempt_loop M fails folderFails f 0 s' q).queue
            (if (attempt_loop M fails folderFails f 0 s' q).failed then ff ++ [f] else ff)).failedFolders,
        fetches := (attempt_loop M fails folderFails f 0 s' q).fetches
          ++ (folder_loop M fails folderFails fs
            (attempt_loop M fails folderFails f 0 s' q).store
            (attempt_loop M fails folderFails f 0 s' q).queue
            (if (attempt_loop M fails folderFails f 0 s' q).failed then ff ++ [f] else ff)).fetches,
        sleeps := (attempt_loop M fails folderFails f 0 s' q).sleeps
          ++ (folder_loop M fails folderFails fs
            (attempt_loop M fails folderFails f 0 s' q).store
            (attempt_loop M fails folderFails f 0 s' q).queue
            (if (attempt_loop M fails folderFails f 0 s' q).failed then ff ++ [f] else ff)).sleeps,
        halted := (folder_loop M fails folderFails fs
            (attempt_loop M fails folderFails f 0 s' q).store
            (attempt_loop M fails folderFails f 0 s' q).queue
            (if (attempt_loop M fails folderFails f 0 s' q).failed then ff ++ [f] else ff)).halted } := by
  conv_lhs => unfold folder_loop
  rw [if_neg hskip, hok]

/-- Already-recorded failed folders stay recorded as the loop proceeds. -/
theorem folder_loop_ff_mono (M : Mailbox) (fails folderFails : String → Nat → Bool) :
    ∀ (fs : List String) (s : Store) (q : List (Nat × String)) (ff : List String),
      ∀ g ∈ ff, g ∈ (folder_loop M fails folderFails fs s q ff).failedFolders := by
  intro fs
  induction fs with
  | nil => intro s q ff g hg; exact hg
  | cons f fs ih =>
      intro s q ff g hg
      by_cases hskip : pyLower f ∈ skip_folders
      · rw [folder_loop_cons_skip hskip]
        exact ih s q ff g hg
      · cases hej : ensure_folder_and_uidvalidity M s f with
        | error e =>
            cases e
            rw [folder_loop_skew hskip hej]
            exact hg
        | ok s' =>
            rw [folder_loop_cons_ok hskip hej]
            apply ih
            split
            · exact List.mem_append_left _ hg
            · exact hg

theorem rawRowOf_folder (f : String) (m : Msg) : (rawRowOf f m).folder = f := rfl

theorem rawRowOf_uid (f : String) (m : Msg) : (rawRowOf f m).uid = m.uid := rfl

/-- Effect skeleton of the whole folder loop: raw rows only grow, and only by
rows derived from the mailbox's messages of their own folder; recorded
UIDVALIDITY values are never changed; the retry queue only grows, and only by
`(uid, folder)` pairs of mailbox messages; participation stays
duplicate-free. -/
theorem folder_loop_spec (M : Mailbox) (fails folderFails : String → Nat → Bool) :
    ∀ (fs : List String) (s : Store) (q : List (Nat × String)) (ff : List String),
      (∀ r ∈ s.downloaded, r ∈ (folder_loop M fails folderFails fs s q ff).store.downloaded) ∧
      (∀ r ∈ (folder_loop M fails folderFails fs s q ff).store.downloaded,
          r ∈ s.downloaded ∨ ∃ m ∈ M.msgs r.folder, m.uid = r.uid) ∧
      (∀ g v, get_uidvalidity s g = some v →
          get_uidvalidity (folder_loop M fails folderFails fs s q ff).store g = some v) ∧
      (∀ e ∈ q, e ∈ (folder_loop M fails folderFails fs s q ff).queue) ∧
      (∀ e ∈ (folder_loop M fails folderFails fs s q ff).queue,
          e ∈ q ∨ ∃ m ∈ M.msgs e.2, m.uid = e.1) ∧
      (s.participants.Nodup →
          (folder_loop M fails folderFails fs s q ff).store.participants.Nodup) := by
  intro fs
  induction fs with
  | nil =>
      intro s q ff
      exact ⟨fun r h => h, fun r h => Or.inl h, fun g v hv => hv, fun e h => h,
        fun e h => Or.inl h, id⟩
  | cons f fs ih =>
      intro s q ff
      by_cases hskip : pyLower f ∈ skip_folders
      · rw [folder_loop_cons_skip hskip]
        exact ih s q ff
      · cases hej : ensure_folder_and_uidvalidity M s f with
        | error e =>
            cases e
            rw [folder_loop_skew hskip hej]
            exact ⟨fun r h => h, fun r h => Or.inl h, fun g v hv => hv, fun e h => h,
              fun e h => Or.inl h, id⟩
        | ok s' =>
            rw [folder_loop_cons_ok hskip hej]
            have hens := ensure_uidvalidity_ok hej
            have hAO :
                (∀ r ∈ s.downloaded,
                    r ∈ (attempt_loop M fails folderFails f 0 s' q).store.downloaded) ∧
                (∀ r ∈ (attempt_loop M fails folderFails f 0 s' q).store.downloaded,
                    r ∈ s.downloaded ∨ ∃ m ∈ M.msgs r.folder, m.uid = r.uid) ∧
                (∀ g v, get_uidvalidity s g = some v →
                    get_uidvalidity (attempt_loop M fails folderFails f 0 s' q).store g
                      = some v) ∧
                (∀ e ∈ q, e ∈ (attempt_loop M fails folderFails f 0 s' q).queue) ∧
                (∀ e ∈ (attempt_loop M fails folderFails f 0 s' q).queue,
                    e ∈ q ∨ ∃ m ∈ M.msgs e.2, m.uid = e.1) ∧
                (s.participants.Nodup →
                    (attempt_loop M fails folderFails f 0 s' q).store.participants.Nodup) := by
              rcases attempt_loop_cases M fails folderFails f 0 s' q with
                ⟨ha, hb, _⟩ | ⟨ha, hb, _⟩
              · refine ⟨?_, ?_, ?_, ?_, ?_, ?_⟩
                · intro r hr
                  rw [ha, hens.1]
                  exact hr
                · intro r hr
                  rw [ha, hens.1] at hr
                  exact Or.inl hr
                · intro g v hv
                  rw [ha]
                  exact hens.2.2.2 g v hv
                · intro e he
                  rw [hb]
                  exact he
                · intro e he
                  rw [hb] at he
                  exact Or.inl he
                · intro h
                  rw [ha, hens.2.1]
                  exact h
              · have hsp := folder_attempt_spec M fails f s' q
                refine ⟨?_, ?_, ?_, ?_, ?_, ?_⟩
                · intro r hr
                  rw [ha]
                  exact hsp.1 r (by rw [hens.1]; exact hr)
                · intro r hr
                  rw [ha] at hr
                  rcases hsp.2.1 r hr with h | ⟨m, hm, hrm⟩
                  · rw [hens.1] at h
                    exact Or.inl h
                  · subst hrm
                    exact Or.inr ⟨m, by rw [rawRowOf_folder]; exact hm, (rawRowOf_uid f m).symm⟩
                · intro g v hv
                  rw [ha, get_uidvalidity_eq_of hsp.2.2.1 g]
                  exact hens.2.2.2 g v hv
                · intro e he
                  rw [hb]
                  exact hsp.2.2.2.1 e he
                · intro e he
                  rw [hb] at he
                  rcases hsp.2.2.2.2.1 e he with h | ⟨m, hm, he', _⟩
                  · exact Or.inl h
                  · subst he'
                    exact Or.inr ⟨m, hm, rfl⟩
                · intro h
                  rw [ha]
                  exact hsp.2.2.2.2.2.1 (by rw [hens.2.1]; exact h)
            have ihr := ih (attempt_loop M fails folderFails f 0 s' q).store
              (attempt_loop M fails folderFails f 0 s' q).queue
              (if (attempt_loop M fails folderFails f 0 s' q).failed then ff ++ [f] else ff)
            refine ⟨?_, ?_, ?_, ?_, ?_, ?_⟩
            · intro r hr
              exact ihr.1 r (hAO.1 r hr)
            · intro r hr
              rcases ihr.2.1 r hr with h | h
              · exact hAO.2.1 r h
              · exact Or.inr h
            · intro g v hv
              exact ihr.2.2.1 g v (hAO.2.2.1 g v hv)
            · intro e he
              exact ihr.2.2.2.1 e (hAO.2.2.2.1 e he)
            · intro e he
              rcases ihr.2.2.2.2.1 e he with h | h
              · exact hAO.2.2.2.2.1 e h
              · exact Or.inr h
            · intro h
              exact ihr.2.2.2.2.2 (hAO.2.2.2.2.2 h)

/-! ## The end-of-run retry pass -/

/-- One retry iteration writes at most a raw `downloaded_emails` row: all
other tables (including the normalized `email` and `email_participant`
tables) are untouched. -/
theorem retry_step_frame (M : Mailbox) (retryFails : String → Nat → Bool)
    (s : Store) (uid : Nat) (folder : String) :
    ((retry_step M retryFails s uid folder).1.emailRows = s.emailRows) ∧
    ((retry_step M retryFails s uid folder).1.nextEmailPk = s.nextEmailPk) ∧
    ((retry_step M retryFails s uid folder).1.addresses = s.addresses) ∧
    ((retry_step M retryFails s uid folder).1.nextAddrId = s.nextAddrId) ∧
    ((retry_step M retryFails s uid folder).1.participants = s.participants) ∧
    ((retry_step M retryFails s uid folder).1.folderUidValidity = s.folderUidValidity) := by
  unfold retry_step
  cases hf : (M.msgs folder).find? (fun m => m.uid == uid) with
  | none => exact ⟨rfl, rfl, rfl, rfl, rfl, rfl⟩
  | some m =>
      dsimp only
      split
      · exact ⟨rfl, rfl, rfl, rfl, rfl, rfl⟩
      · have h := @mark_email_downloaded_frame s (rawRowOf folder m)
        exact ⟨h.2.1, h.2.2.1, h.2.2.2.1, h.2.2.2.2.1, h.2.2.2.2.2, h.1⟩

/-- One retry iteration only adds the fetched message's raw row. -/
theorem retry_step_downloaded (M : Mailbox) (retryFails : String → Nat → Bool)
    (s : Store) (uid : Nat) (folder : String) :
    (∀ r ∈ s.downloaded, r ∈ (retry_step M retryFails s uid folder).1.downloaded) ∧
    (∀ r ∈ (retry_step M retryFails s uid folder).1.downloaded,
        r ∈ s.downloaded ∨ ∃ m ∈ M.msgs r.folder, m.uid = r.uid) := by
  unfold retry_step
  cases hf : (M.msgs folder).find? (fun m => m.uid == uid) with
  | none => exact ⟨fun r h => h, fun r h => Or.inl h⟩
  | some m =>
      have hmem : m ∈ M.msgs folder := List.mem_of_find?_eq_some hf
      dsimp only
      split
      · exact ⟨fun r h => h, fun r h => Or.inl h⟩
      · constructor
        · intro r hr
          exact mark_downloaded_mem hr
        · intro r hr
          rcases mark_downloaded_cases hr with h | h
          · exact Or.inl h
          · subst h
            exact Or.inr ⟨m, by rw [rawRowOf_folder]; exact hmem, (rawRowOf_uid folder m).symm⟩

/-- The retry pass never touches the normalized tables or the UIDVALIDITY
table, for any number of iterations. -/
theorem retry_iter_frame (M : Mailbox) (retryFails : String → Nat → Bool) :
    ∀ (n : Nat) (s : Store) (lst : List (Nat × String)) (i : Nat),
      ((retry_iter M retryFails n s lst i).1.emailRows = s.emailRows) ∧
      ((retry_iter M retryFails n s lst i).1.nextEmailPk = s.nextEmailPk) ∧
      ((retry_iter M retryFails n s lst i).1.addresses = s.addresses) ∧
      ((retry_iter M retryFails n s lst i).1.nextAddrId = s.nextAddrId) ∧
      ((retry_iter M retryFails n s lst i).1.participants = s.participants) ∧
      ((retry_iter M retryFails n s lst i).1.folderUidValidity = s.folderUidValidity) := by
  intro n
  induction n with
  | zero => intro s lst i; exact ⟨rfl, rfl, rfl, rfl, rfl, rfl⟩
  | succ n ih =>
      intro s lst i
      unfold retry_iter
      cases hi : lst[i]? with
      | none => exact ⟨rfl, rfl, rfl, rfl, rfl, rfl⟩
      | some e =>
          obtain ⟨uid, folder⟩ := e
          dsimp only
          have hstep := retry_step_frame M retryFails s uid folder
          have hrec := ih (retry_step M retryFails s uid folder).1
            (match (retry_step M retryFails s uid folder).2.1 with
             | some e => lst ++ [e]
             | none => lst) (i + 1)
          exact ⟨hrec.1.trans hstep.1, hrec.2.1.trans hstep.2.1,
            hrec.2.2.1.trans hstep.2.2.1, hrec.2.2.2.1.trans hstep.2.2.2.1,
            hrec.2.2.2.2.1.trans hstep.2.2.2.2.1, hrec.2.2.2.2.2.trans hstep.2.2.2.2.2⟩

/-- The retry pass only adds raw rows derived from mailbox messages. -/
theorem retry_iter_downloaded (M : Mailbox) (retryFails : String → Nat → Bool) :
    ∀ (n : Nat) (s : Store) (lst : List (Nat × String)) (i : Nat),
      (∀ r ∈ s.downloaded, r ∈ (retry_iter M retryFails n s lst i).1.downloaded) ∧
      (∀ r ∈ (retry_iter M retryFails n s lst i).1.downloaded,
          r ∈ s.downloaded ∨ ∃ m ∈ M.msgs r.folder, m.uid = r.uid) := by
  intro n
  induction n with
  | zero => intro s lst i; exact ⟨fun r h => h, fun r h => Or.inl h⟩
  | succ n ih =>
      intro s lst i
      unfold retry_iter
      cases hi : lst[i]? with
      | none => exact ⟨fun r h => h, fun r h => Or.inl h⟩
      | some e =>
          obtain ⟨uid, folder⟩ := e
          dsimp only
          have hstep := retry_step_downloaded M retryFails s uid folder
          have hrec := ih (retry_step M retryFails s uid folder).1
            (match (retry_step M retryFails s uid folder).2.1 with
             | some e => lst ++ [e]
             | none => lst) (i + 1)
          constructor
          · intro r hr
            exact hrec.1 r (hstep.1 r hr)
          · intro r hr
            rcases hrec.2 r hr with h | h
            · exact hstep.2 r h
            · exact Or.inr h

theorem folderQuiet_mono {M : Mailbox} {s t : Store} {f : String}
    (hsub : ∀ r ∈ s.downloaded, r ∈ t.downloaded)
    (hadd : ∀ r ∈ t.downloaded, r ∈ s.downloaded ∨ ∃ m ∈ M.msgs r.folder, m.uid = r.uid)
    (hq : folderQuiet M s f) : folderQuiet M t f := by
  unfold folderQuiet at hq ⊢
  cases hmax : get_max_uid s f with
  | some v =>
      rw [hmax] at hq
      have hq' : ∀ m ∈ M.msgs f, m.uid ≤ v := hq
      obtain ⟨w, hw, hvw⟩ := get_max_uid_mono hsub hmax
      rw [hw]
      intro m hm
      exact le_trans (hq' m hm) hvw
  | none =>
      rw [hmax] at hq
      have hq' : M.msgs f = [] := hq
      cases hmax2 : get_max_uid t f with
      | none => exact hq'
      | some w =>
          exfalso
          obtain ⟨r, hr, hf, _⟩ := get_max_uid_mem hmax2
          rcases hadd r hr with h | ⟨m, hm, _⟩
          · exact get_max_uid_none hmax r h hf
          · rw [hf, hq'] at hm
            cases hm

/-- A recorded UIDVALIDITY equal to the server's current value passes the
check with no store change. -/
theorem ensure_uidvalidity_ok_of_match {M : Mailbox} {s : Store} {f : String}
    (h : get_uidvalidity s f = some (M.uidvalidity f)) :
    ensure_folder_and_uidvalidity M s f = .ok s := by
  unfold ensure_folder_and_uidvalidity
  rw [h]
  simp

/-- The heart of idempotence: when the failure-free folder loop has run once
from `(s, q)` over a folder list, and `s1` extends its resulting store only by
rows derived from mailbox messages (as the end-of-run retry pass does) with
the UIDVALIDITY table unchanged, re-running the failure-free loop over the
same folders from `s1` changes nothing and queues nothing. -/
theorem folder_loop_rerun (M : Mailbox) :
    ∀ (fs : List String) (s : Store) (q : List (Nat × String)) (ff : List String)
      (s1 : Store) (ff1 : List String),
      (∀ r ∈ (folder_loop M cfalse cfalse fs s q ff).store.downloaded, r ∈ s1.downloaded) →
      (∀ r ∈ s1.downloaded,
          r ∈ (folder_loop M cfalse cfalse fs s q ff).store.downloaded ∨
          ∃ m ∈ M.msgs r.folder, m.uid = r.uid) →
      (s1.folderUidValidity = (folder_loop M cfalse cfalse fs s q ff).store.folderUidValidity) →
      (folder_loop M cfalse cfalse fs s1 [] ff1).store = s1 ∧
      (folder_loop M cfalse cfalse fs s1 [] ff1).queue = [] := by
  intro fs
  induction fs with
  | nil =>
      intro s q ff s1 ff1 _ _ _
      exact ⟨rfl, rfl⟩
  | cons f fs ih =>
      intro s q ff s1 ff1 hExt1 hExt2 hExt3
      by_cases hskip : pyLower f ∈ skip_folders
      · rw [folder_loop_cons_skip hskip] at hExt1 hExt2 hExt3 ⊢
        exact ih s q ff s1 ff1 hExt1 hExt2 hExt3
      · cases hej : ensure_folder_and_uidvalidity M s f with
        | error e =>
            cases e
            rw [folder_loop_skew hskip hej] at hExt1 hExt2 hExt3
            obtain ⟨v, hv, hvne⟩ := ensure_uidvalidity_error hej
            have herr1 : ensure_folder_and_uidvalidity M s1 f = .error () :=
              ensure_uidvalidity_error_of_skew
                (by rw [get_uidvalidity_eq_of hExt3 f]; exact hv) hvne
            rw [folder_loop_skew hskip herr1]
            exact ⟨rfl, rfl⟩
        | ok s' =>
            rw [folder_loop_cons_ok hskip hej] at hExt1 hExt2 hExt3
            have hens := ensure_uidvalidity_ok hej
            have hAOeq := @attempt_loop_ok M cfalse cfalse f s' q rfl
            have hlsp := folder_loop_spec M cfalse cfalse fs
              (attempt_loop M cfalse cfalse f 0 s' q).store
              (attempt_loop M cfalse cfalse f 0 s' q).queue
              (if (attempt_loop M cfalse cfalse f 0 s' q).failed then ff ++ [f] else ff)
            -- the recorded UIDVALIDITY of `f` is visible in s1
            have hvalAO : get_uidvalidity (attempt_loop M cfalse cfalse f 0 s' q).store f
                = some (M.uidvalidity f) := by
              rw [hAOeq]
              have := (folder_attempt_spec M cfalse f s' q).2.2.1
              rw [get_uidvalidity_eq_of this f]
              exact hens.2.2.1
            have hval1 : get_uidvalidity s1 f = some (M.uidvalidity f) := by
              rw [get_uidvalidity_eq_of hExt3 f]
              exact hlsp.2.2.1 f _ hvalAO
            -- the folder is quiet in s1
            have hqAO : folderQuiet M (attempt_loop M cfalse cfalse f 0 s' q).store f := by
              rw [hAOeq]
              exact folder_attempt_post_quiet M cfalse f s' q (fun u => rfl)
            have hq1 : folderQuiet M s1 f :=
              folderQuiet_mono hExt1 hExt2 (folderQuiet_mono hlsp.1 hlsp.2.1 hqAO)
            -- the second run's check passes with no write, and its attempt is a no-op
            have hok1 : ensure_folder_and_uidvalidity M s1 f = .ok s1 :=
              ensure_uidvalidity_ok_of_match hval1
            rw [folder_loop_cons_ok hskip hok1]
            have hAO2 := @attempt_loop_ok M cfalse cfalse f s1 ([] : List (Nat × String)) rfl
            have hqa2 := @folder_attempt_of_quiet M cfalse f s1 ([] : List (Nat × String)) hq1
            rw [hqa2] at hAO2
            rw [hAO2]
            exact ih (attempt_loop M cfalse cfalse f 0 s' q).store
              (attempt_loop M cfalse cfalse f 0 s' q).queue
              (if (attempt_loop M cfalse cfalse f 0 s' q).failed then ff ++ [f] else ff)
              s1 ff1 hExt1 hExt2 hExt3

/-! ## Fetch-predicate lemmas for incremental correctness -/

theorem get_max_uid_eq_of_downloaded {s t : Store} (h : t.downloaded = s.downloaded)
    (f : String) : get_max_uid t f = get_max_uid s f := by
  unfold get_max_uid
  rw [h]

/-- The shape of one retry iteration's bookkeeping: the only possible queue
append is the entry itself, and exactly one single-uid fetch is issued. -/
theorem retry_step_shape (M : Mailbox) (retryFails : String → Nat → Bool)
    (s : Store) (uid : Nat) (folder : String) :
    ((retry_step M retryFails s uid folder).2.1 = some (uid, folder) ∨
     (retry_step M retryFails s uid folder).2.1 = none) ∧
    (retry_step M retryFails s uid folder).2.2 = [(folder, FetchQuery.uidIn [uid])] := by
  unfold retry_step
  cases (M.msgs folder).find? (fun m => m.uid == uid) with
  | none => exact ⟨Or.inl rfl, rfl⟩
  | some m =>
      dsimp only
      split
      · exact ⟨Or.inl rfl, rfl⟩
      · exact ⟨Or.inr rfl, rfl⟩

/-- When every queue entry for folder `f` has uid above `U`, every fetch the
retry pass issues for `f` requests no uid at or below `U`. -/
theorem retry_iter_fetches_above (M : Mailbox) (retryFails : String → Nat → Bool)
    (f : String) (U : Nat) :
    ∀ (n : Nat) (s : Store) (lst : List (Nat × String)) (i : Nat),
      (∀ e ∈ lst, e.2 = f → U < e.1) →
      ∀ fe ∈ (retry_iter M retryFails n s lst i).2.2.2, fe.1 = f → ∀ u, u ≤ U →
        fe.2.requests u = false := by
  intro n
  induction n with
  | zero => intro s lst i _ fe hfe; cases hfe
  | succ n ih =>
      intro s lst i hq fe hfe
      rw [retry_iter] at hfe
      cases hi : lst[i]? with
      | none => rw [hi] at hfe; cases hfe
      | some e =>
          obtain ⟨uid, folder⟩ := e
          rw [hi] at hfe
          dsimp only at hfe
          have hshape := retry_step_shape M retryFails s uid folder
          rw [hshape.2] at hfe
          rcases List.mem_append.mp hfe with h | h
          · simp only [List.mem_singleton] at h
            subst h
            intro hfold u hu
            have hent : U < uid := hq (uid, folder) (List.getElem?_mem hi) hfold
            simp only [FetchQuery.requests]
            simp
            omega
          · have hq' : ∀ e ∈ (match (retry_step M retryFails s uid folder).2.1 with
                | some e => lst ++ [e]
                | none => lst), e.2 = f → U < e.1 := by
              rcases hshape.1 with hs | hs
              · rw [hs]
                intro e he
                rcases List.mem_append.mp he with h' | h'
                · exact hq e h'
                · simp only [List.mem_singleton] at h'
                  subst h'
                  exact hq (uid, folder) (List.getElem?_mem hi)
              · rw [hs]
                exact hq
            exact ih (retry_step M retryFails s uid folder).1 _ (i + 1) hq' fe h

/-- With an always-failing retry, every iteration re-appends its entry. -/
theorem retry_step_append_of_fail {M : Mailbox} {retryFails : String → Nat → Bool}
    {s : Store} {uid : Nat} {folder : String} (h : retryFails folder uid = true) :
    (retry_step M retryFails s uid folder).2.1 = some (uid, folder) := by
  unfold retry_step
  cases (M.msgs folder).find? (fun m => m.uid == uid) with
  | none => rfl
  | some m =>
      dsimp only
      rw [if_pos h]

/-- With an always-failing retry, after `n` iterations from a position inside
the list, the index is `i + n` while the list has grown to `length + n`: the
index never catches up with the length, so the source loop never exits. -/
theorem retry_iter_growth (M : Mailbox) (retryFails : String → Nat → Bool)
    (hfail : ∀ g u, retryFails g u = true) :
    ∀ (n : Nat) (s : Store) (lst : List (Nat × String)) (i : Nat), i < lst.length →
      (retry_iter M retryFails n s lst i).2.2.1 = i + n ∧
      (retry_iter M retryFails n s lst i).2.1.length = lst.length + n := by
  intro n
  induction n with
  | zero => intro s lst i hi; exact ⟨rfl, rfl⟩
  | succ n ih =>
      intro s lst i hi
      unfold retry_iter
      rw [List.getElem?_eq_getElem hi]
      rcases he : lst[i] with ⟨uid, folder⟩
      dsimp only
      rw [retry_step_append_of_fail (hfail folder uid)]
      dsimp only
      have hrec := ih (retry_step M retryFails s uid folder).1 (lst ++ [(uid, folder)]) (i + 1)
        (by simp; omega)
      refine ⟨?_, ?_⟩
      · rw [hrec.1]; omega
      · rw [hrec.2]; simp; omega

/-- Within the folder loop, once the stored maximum uid of folder `f` is at
least `U`, every fetch the loop issues for `f` requests only uids above `U`,
the queue keeps only above-`U` entries for `f`, and the maximum never drops. -/
theorem folder_loop_fetches_above (M : Mailbox) (fails folderFails : String → Nat → Bool)
    (f : String) (U : Nat) :
    ∀ (fs : List String) (s : Store) (q : List (Nat × String)) (ff : List String),
      (∃ V, get_max_uid s f = some V ∧ U ≤ V) →
      (∀ e ∈ q, e.2 = f → U < e.1) →
      (∀ fe ∈ (folder_loop M fails folderFails fs s q ff).fetches,
          fe.1 = f → ∀ u, u ≤ U → fe.2.requests u = false) ∧
      (∀ e ∈ (folder_loop M fails folderFails fs s q ff).queue, e.2 = f → U < e.1) := by
  intro fs
  induction fs with
  | nil =>
      intro s q ff _ hq
      exact ⟨fun fe hfe => absurd hfe (List.not_mem_nil fe), hq⟩
  | cons g fs ih =>
      intro s q ff hmax hq
      by_cases hskip : pyLower g ∈ skip_folders
      · rw [folder_loop_cons_skip hskip]
        exact ih s q ff hmax hq
      · cases hej : ensure_folder_and_uidvalidity M s g with
        | error e =>
            cases e
            rw [folder_loop_skew hskip hej]
            exact ⟨fun fe hfe => absurd hfe (List.not_mem_nil fe), hq⟩
        | ok s' =>
            rw [folder_loop_cons_ok hskip hej]
            have hens := ensure_uidvalidity_ok hej
            have hmax' : ∃ V, get_max_uid s' f = some V ∧ U ≤ V := by
              obtain ⟨V, hV, hUV⟩ := hmax
              exact ⟨V, by rw [get_max_uid_eq_of_downloaded hens.1 f]; exact hV, hUV⟩
            -- relate the attempt-loop output to `s'`/`q`
            have hAO :
                (∃ V, get_max_uid (attempt_loop M fails folderFails g 0 s' q).store f
                    = some V ∧ U ≤ V) ∧
                (∀ e ∈ (attempt_loop M fails folderFails g 0 s' q).queue, e.2 = f → U < e.1) ∧
                (∀ fe ∈ (attempt_loop M fails folderFails g 0 s' q).fetches,
                    fe.1 = f → ∀ u, u ≤ U → fe.2.requests u = false) := by
              rcases attempt_loop_cases M fails folderFails g 0 s' q with
                ⟨ha, hb, hc⟩ | ⟨ha, hb, hc⟩
              · refine ⟨by rw [ha]; exact hmax', by rw [hb]; exact hq, ?_⟩
                rw [hc]
                intro fe hfe
                cases hfe
              · have hsp := folder_attempt_spec M fails g s' q
                obtain ⟨V, hV, hUV⟩ := hmax'
                refine ⟨?_, ?_, ?_⟩
                · obtain ⟨W, hW, hVW⟩ := get_max_uid_mono hsp.1 hV
                  exact ⟨W, by rw [ha]; exact hW, le_trans hUV hVW⟩
                · intro e he
                  rw [hb] at he
                  intro hef
                  rcases hsp.2.2.2.2.1 e he with h | ⟨m, hm, he', hrm⟩
                  · exact hq e h hef
                  · subst he'
                    simp only at hef
                    subst hef
                    by_contra hnot
                    push_neg at hnot
                    unfold initial_query at hrm
                    rw [hV] at hrm
                    simp only [FetchQuery.requests, decide_eq_true_eq] at hrm
                    omega
                · intro fe hfe hff u hu
                  rw [hc] at hfe
                  obtain ⟨hfg, hfr⟩ := hsp.2.2.2.2.2.2 fe hfe
                  cases hru : fe.2.requests u with
                  | false => rfl
                  | true =>
                      exfalso
                      have := hfr u hru
                      rw [hfg] at hff
                      subst hff
                      unfold initial_query at this
                      rw [hV] at this
                      simp only [FetchQuery.requests, decide_eq_true_eq] at this
                      omega
            have ihr := ih (attempt_loop M fails folderFails g 0 s' q).store
              (attempt_loop M fails folderFails g 0 s' q).queue
              (if (attempt_loop M fails folderFails g 0 s' q).failed then ff ++ [g] else ff)
              hAO.1 hAO.2.1
            refine ⟨?_, ihr.2⟩
            intro fe hfe
            rcases List.mem_append.mp hfe with h | h
            · exact hAO.2.2 fe h
            · exact ihr.1 fe h

/-- A message whose extraction raises is queued by the fold, whatever else the
batch contains. -/
theorem process_fold_queue_mem {fails : String → Nat → Bool} {f : String}
    {existing : List Nat} {msgs : List Msg} {b : Msg}
    (hb : b ∈ msgs) (hbf : fails f b.uid = true) (hbe : b.uid ∉ existing) :
    ∀ sq, (b.uid, f) ∈ (msgs.foldl (process_message fails f existing) sq).2 := by
  induction msgs with
  | nil => cases hb
  | cons a l ih =>
      intro sq
      rcases List.mem_cons.mp hb with rfl | hb'
      · simp only [List.foldl_cons]
        rw [process_message_fail hbe hbf]
        have hmem : (b.uid, f) ∈ (sq.1, sq.2 ++ [(b.uid, f)]).2 := by simp
        exact foldl_invariant
          (fun t m hm => (process_message_spec fails f existing t m).2.2.2.1 _ hm) l _ hmem
      · simp only [List.foldl_cons]
        exact ih hb' _

/-! ## The claims -/

/-- C1: Running the sync twice against an unchanged mailbox yields identical
store contents: the second run inserts no new or duplicate rows into
`downloaded_emails`, `email`, `email_address`, or `email_participant` (the
whole store after the second run equals the store after the first), and every
`(email_pk, email_id, role)` participation triple remains unique. -/
theorem C1_sync_idempotent (M : Mailbox) (s0 : Store) (h0 : s0.participants.Nodup) :
    (run_sync M cfalse cfalse cfalse (run_sync M cfalse cfalse cfalse s0).store).store
      = (run_sync M cfalse cfalse cfalse s0).store ∧
    (run_sync M cfalse cfalse cfalse s0).store.participants.Nodup := by
  have hrd := retry_iter_downloaded M cfalse
    (folder_loop M cfalse cfalse M.folders s0 [] []).queue.length
    (folder_loop M cfalse cfalse M.folders s0 [] []).store
    (folder_loop M cfalse cfalse M.folders s0 [] []).queue 0
  have hrf := retry_iter_frame M cfalse
    (folder_loop M cfalse cfalse M.folders s0 [] []).queue.length
    (folder_loop M cfalse cfalse M.folders s0 [] []).store
    (folder_loop M cfalse cfalse M.folders s0 [] []).queue 0
  have hs1 : (run_sync M cfalse cfalse cfalse s0).store
      = (retry_iter M cfalse
          (folder_loop M cfalse cfalse M.folders s0 [] []).queue.length
          (folder_loop M cfalse cfalse M.folders s0 [] []).store
          (folder_loop M cfalse cfalse M.folders s0 [] []).queue 0).1 := rfl
  constructor
  · have hrr := folder_loop_rerun M M.folders s0 [] []
      (run_sync M cfalse cfalse cfalse s0).store []
      (by rw [hs1]; exact hrd.1) (by rw [hs1]; exact hrd.2)
      (by rw [hs1]; exact hrf.2.2.2.2.2)
    have h2 : (run_sync M cfalse cfalse cfalse
          (run_sync M cfalse cfalse cfalse s0).store).store
        = (retry_iter M cfalse
            (folder_loop M cfalse cfalse M.folders
              (run_sync M cfalse cfalse cfalse s0).store [] []).queue.length
            (folder_loop M cfalse cfalse M.folders
              (run_sync M cfalse cfalse cfalse s0).store [] []).store
            (folder_loop M cfalse cfalse M.folders
              (run_sync M cfalse cfalse cfalse s0).store [] []).queue 0).1 := rfl
    rw [h2, hrr.1, hrr.2]
    rfl
  · rw [hs1, hrf.2.2.2.2.1]
    exact (folder_loop_spec M cfalse cfalse M.folders s0 [] []).2.2.2.2.2 h0

theorem C1_sync_idempotent_witness :
    emptyStore.participants.Nodup ∧
    ((run_sync mbox_noMid cfalse cfalse cfalse
        (run_sync mbox_noMid cfalse cfalse cfalse emptyStore).store).store
      = (run_sync mbox_noMid cfalse cfalse cfalse emptyStore).store ∧
    (run_sync mbox_noMid cfalse cfalse cfalse emptyStore).store.participants.Nodup) :=
  ⟨by decide, C1_sync_idempotent mbox_noMid emptyStore (by decide)⟩

/-- C2 (counterexample): a run against a mailbox whose folder "B" has a
UIDVALIDITY mismatch halts at "B", yet the final store differs from the store
at the moment the mismatch was detected — the end-of-run retry pass still
inserted the raw row of folder "A"'s queued message, so "no further store
writes after the mismatch" is false as stated. -/
theorem C2_writes_after_skew_counterexample :
    (run_sync mbox_skew fails_skew cfalse cfalse store_skew).halted = some "B" ∧
    (run_sync mbox_skew fails_skew cfalse cfalse store_skew).store
      ≠ (run_sync mbox_skew fails_skew cfalse cfalse store_skew).midStore ∧
    (run_sync mbox_skew fails_skew cfalse cfalse store_skew).midStore.downloaded = [] ∧
    (run_sync mbox_skew fails_skew cfalse cfalse store_skew).store.downloaded
      = [rawRowOf "A" msg_plain] := by
  refine ⟨by decide, by decide, by decide, by decide⟩

/-- C2 (amended): a UIDVALIDITY mismatch halts the folder loop on the spot —
the mismatched folder and every subsequent folder are left unprocessed and
the loop performs no further store writes — but the end-of-run retry pass
still runs for messages queued before the mismatch, and its writes touch only
the raw `downloaded_emails` table: the normalized `email`, `email_address`,
`email_participant` tables and the UIDVALIDITY table are exactly as at
detection time. -/
theorem C2_uidvalidity_halt_amended :
    (∀ (M : Mailbox) (fails folderFails : String → Nat → Bool) (f : String)
        (fs : List String) (s : Store) (q : List (Nat × String)) (ff : List String),
        pyLower f ∉ skip_folders →
        ensure_folder_and_uidvalidity M s f = .error () →
        folder_loop M fails folderFails (f :: fs) s q ff =
          { store := s, queue := q, failedFolders := ff, fetches := [], sleeps := [],
            halted := some f }) ∧
    (∀ (M : Mailbox) (fails folderFails retryFails : String → Nat → Bool) (s0 : Store),
        (run_sync M fails folderFails retryFails s0).store.emailRows
            = (run_sync M fails folderFails retryFails s0).midStore.emailRows ∧
        (run_sync M fails folderFails retryFails s0).store.addresses
            = (run_sync M fails folderFails retryFails s0).midStore.addresses ∧
        (run_sync M fails folderFails retryFails s0).store.participants
            = (run_sync M fails folderFails retryFails s0).midStore.participants ∧
        (run_sync M fails folderFails retryFails s0).store.folderUidValidity
            = (run_sync M fails folderFails retryFails s0).midStore.folderUidValidity) := by
  constructor
  · intro M fails folderFails f fs s q ff hskip herr
    exact folder_loop_skew hskip herr
  · intro M fails folderFails retryFails s0
    have hrf := retry_iter_frame M retryFails
      (folder_loop M fails folderFails M.folders s0 [] []).queue.length
      (folder_loop M fails folderFails M.folders s0 [] []).store
      (folder_loop M fails folderFails M.folders s0 [] []).queue 0
    exact ⟨hrf.1, hrf.2.2.1, hrf.2.2.2.2.1, hrf.2.2.2.2.2⟩

theorem C2_uidvalidity_halt_amended_witness :
    (folder_loop mbox_skew cfalse cfalse ["B"] store_skew [] [] =
      { store := store_skew, queue := [], failedFolders := [], fetches := [], sleeps := [],
        halted := some "B" }) ∧
    ((run_sync mbox_skew fails_skew cfalse cfalse store_skew).store.emailRows
        = (run_sync mbox_skew fails_skew cfalse cfalse store_skew).midStore.emailRows ∧
     (run_sync mbox_skew fails_skew cfalse cfalse store_skew).store.addresses
        = (run_sync mbox_skew fails_skew cfalse cfalse store_skew).midStore.addresses ∧
     (run_sync mbox_skew fails_skew cfalse cfalse store_skew).store.participants
        = (run_sync mbox_skew fails_skew cfalse cfalse store_skew).midStore.participants ∧
     (run_sync mbox_skew fails_skew cfalse cfalse store_skew).store.folderUidValidity
        = (run_sync mbox_skew fails_skew cfalse cfalse store_skew).midStore.folderUidValidity) :=
  ⟨C2_uidvalidity_halt_amended.1 mbox_skew cfalse cfalse "B" [] store_skew [] []
      (by decide) (by rfl),
   C2_uidvalidity_halt_amended.2 mbox_skew fails_skew cfalse cfalse store_skew⟩

/-- C3: For every folder whose stored records give max-known-uid `U`, every
fetch the sync issues for that folder — the incremental enumeration, every
batch fetch, and every end-of-run retry fetch — requests only uids strictly
above `U`; no message with uid at most `U` is ever re-fetched from the
server.  This holds for arbitrary injected failures. -/
theorem C3_incremental_fetch_above_max (M : Mailbox)
    (fails folderFails retryFails : String → Nat → Bool) (s0 : Store)
    (f : String) (U : Nat) (hU : get_max_uid s0 f = some U) :
    ∀ fe ∈ (run_sync M fails folderFails retryFails s0).fetches,
      fe.1 = f → ∀ u, u ≤ U → fe.2.requests u = false := by
  intro fe hfe
  have hloop := folder_loop_fetches_above M fails folderFails f U M.folders s0 [] []
    ⟨U, hU, le_rfl⟩ (fun e he => absurd he (List.not_mem_nil e))
  have hretry := retry_iter_fetches_above M retryFails f U
    (folder_loop M fails folderFails M.folders s0 [] []).queue.length
    (folder_loop M fails folderFails M.folders s0 [] []).store
    (folder_loop M fails folderFails M.folders s0 [] []).queue 0 hloop.2
  have hfe' : fe ∈ (folder_loop M fails folderFails M.folders s0 [] []).fetches
      ++ (retry_iter M retryFails
          (folder_loop M fails folderFails M.folders s0 [] []).queue.length
          (folder_loop M fails folderFails M.folders s0 [] []).store
          (folder_loop M fails folderFails M.folders s0 [] []).queue 0).2.2.2 := hfe
  rcases List.mem_append.mp hfe' with h | h
  · exact hloop.1 fe h
  · exact hretry fe h

theorem C3_incremental_fetch_above_max_witness :
    get_max_uid store_sent "Sent" = some 50 ∧
    (∀ fe ∈ (run_sync mbox_skew cfalse cfalse cfalse store_sent).fetches,
      fe.1 = "Sent" → ∀ u, u ≤ 50 → fe.2.requests u = false) :=
  ⟨by decide,
   C3_incremental_fetch_above_max mbox_skew cfalse cfalse cfalse store_sent "Sent" 50
     (by decide)⟩

/-- C4: The end-of-run retry loop iterates over the very list that its error
handler appends to.  With a message that fails on every retry, after any
number `n` of iterations the iteration index is still strictly below the
(grown) list length — the loop condition never becomes false, so the loop
never terminates and the queued message is retried without bound, not exactly
once. -/
theorem C4_retry_requeue_diverges (M : Mailbox) (retryFails : String → Nat → Bool)
    (hfail : ∀ g u, retryFails g u = true) (n : Nat) (s : Store)
    (lst : List (Nat × String)) (i : Nat) (hi : i < lst.length) :
    (retry_iter M retryFails n s lst i).2.2.1
        < (retry_iter M retryFails n s lst i).2.1.length ∧
    (retry_iter M retryFails n s lst i).2.1.length = lst.length + n := by
  have h := retry_iter_growth M retryFails hfail n s lst i hi
  refine ⟨?_, h.2⟩
  rw [h.1, h.2]
  omega

theorem C4_retry_requeue_diverges_witness :
    (0 < [((7 : Nat), "Sent")].length) ∧
    ((retry_iter mbox_skew ctrue 5 emptyStore [(7, "Sent")] 0).2.2.1
        < (retry_iter mbox_skew ctrue 5 emptyStore [(7, "Sent")] 0).2.1.length ∧
     (retry_iter mbox_skew ctrue 5 emptyStore [(7, "Sent")] 0).2.1.length
        = [((7 : Nat), "Sent")].length + 5) :=
  ⟨by decide,
   C4_retry_requeue_diverges mbox_skew ctrue (fun g u => rfl) 5 emptyStore
     [(7, "Sent")] 0 (by decide)⟩

/-- C5: If processing one message of a batch raises, the exception is caught
and the message is queued for the end-of-run retry, while every other
non-failing new message of the same batch is still processed and persisted
(its raw row is stored when the batch fold completes). -/
theorem C5_batch_isolation (fails : String → Nat → Bool) (f : String)
    (existing : List Nat) (msgs : List Msg) (s : Store) (q : List (Nat × String))
    (b : Msg) (hb : b ∈ msgs) (hbf : fails f b.uid = true) (hbe : b.uid ∉ existing) :
    (b.uid, f) ∈ (msgs.foldl (process_message fails f existing) (s, q)).2 ∧
    ∀ m ∈ msgs, fails f m.uid = false → m.uid ∉ existing →
      is_email_downloaded (msgs.foldl (process_message fails f existing) (s, q)).1
        m.uid f = true := by
  refine ⟨process_fold_queue_mem hb hbf hbe (s, q), ?_⟩
  intro m hm hmf hme
  exact process_fold_marks hm hmf hme (s, q)

theorem C5_batch_isolation_witness :
    msg_noMid ∈ [msg_noMid, msg_second] ∧
    fails_uid1 "INBOX" msg_noMid.uid = true ∧
    msg_noMid.uid ∉ ([] : List Nat) ∧
    ((msg_noMid.uid, "INBOX")
        ∈ ([msg_noMid, msg_second].foldl
            (process_message fails_uid1 "INBOX" []) (emptyStore, [])).2 ∧
     ∀ m ∈ [msg_noMid, msg_second], fails_uid1 "INBOX" m.uid = false →
        m.uid ∉ ([] : List Nat) →
        is_email_downloaded
          ([msg_noMid, msg_second].foldl
            (process_message fails_uid1 "INBOX" []) (emptyStore, [])).1 m.uid "INBOX"
          = true) :=
  ⟨by decide, by decide, by decide,
   C5_batch_isolation fails_uid1 "INBOX" [] [msg_noMid, msg_second] emptyStore []
     msg_noMid (by decide) (by decide) (by decide)⟩

/-- C6: A folder whose attempts all raise is retried up to the fixed limit of
3 attempts with a fixed 5-second sleep between consecutive attempts (sleeps
`[5, 5]`), the store and queue are left unchanged, the folder is recorded as
permanently failed, and the driver continues with the next folder. -/
theorem C6_folder_retry_exhaustion (M : Mailbox) (fails folderFails : String → Nat → Bool)
    (f : String) (fs : List String) (s s' : Store) (q : List (Nat × String))
    (ff : List String) (hskip : pyLower f ∉ skip_folders)
    (hok : ensure_folder_and_uidvalidity M s f = .ok s')
    (h1 : folderFails f 1 = true) (h2 : folderFails f 2 = true)
    (h3 : folderFails f 3 = true) :
    attempt_loop M fails folderFails f 0 s' q =
      { store := s', queue := q, failed := true, fetches := [], sleeps := [5, 5],
        attemptsMade := 3 } ∧
    f ∈ (folder_loop M fails folderFails (f :: fs) s q ff).failedFolders ∧
    (folder_loop M fails folderFails (f :: fs) s q ff).store
      = (folder_loop M fails folderFails fs s' q (ff ++ [f])).store ∧
    (folder_loop M fails folderFails (f :: fs) s q ff).halted
      = (folder_loop M fails folderFails fs s' q (ff ++ [f])).halted := by
  have hex := @attempt_loop_exhausted M fails folderFails f s' q h1 h2 h3
  refine ⟨hex, ?_, ?_, ?_⟩
  · rw [folder_loop_cons_ok hskip hok, hex]
    simp only
    exact folder_loop_ff_mono M fails folderFails fs s' q (ff ++ [f]) f
      (List.mem_append_right ff (List.mem_singleton.mpr rfl))
  · rw [folder_loop_cons_ok hskip hok, hex]
    dsimp only
    rw [if_pos rfl]
  · rw [folder_loop_cons_ok hskip hok, hex]
    dsimp only
    rw [if_pos rfl]

theorem C6_folder_retry_exhaustion_witness :
    pyLower "A" ∉ skip_folders ∧
    ensure_folder_and_uidvalidity mbox_skew emptyStore "A"
      = .ok (set_uidvalidity emptyStore "A" 1) ∧
    (attempt_loop mbox_skew cfalse ctrue "A" 0 (set_uidvalidity emptyStore "A" 1) [] =
      { store := set_uidvalidity emptyStore "A" 1, queue := [], failed := true,
        fetches := [], sleeps := [5, 5], attemptsMade := 3 } ∧
     "A" ∈ (folder_loop mbox_skew cfalse ctrue ["A"] emptyStore [] []).failedFolders ∧
     (folder_loop mbox_skew cfalse ctrue ["A"] emptyStore [] []).store
        = (folder_loop mbox_skew cfalse ctrue []
            (set_uidvalidity emptyStore "A" 1) [] ["A"]).store ∧
     (folder_loop mbox_skew cfalse ctrue ["A"] emptyStore [] []).halted
        = (folder_loop mbox_skew cfalse ctrue []
            (set_uidvalidity emptyStore "A" 1) [] ["A"]).halted) :=
  ⟨by decide, by rfl,
   C6_folder_retry_exhaustion mbox_skew cfalse ctrue "A" [] emptyStore
     (set_uidvalidity emptyStore "A" 1) [] [] (by decide) (by rfl) rfl rfl rfl⟩

/-- C7: Recipient normalization is representation-independent: the delimited
string `"A@Ex.com; b@ex.com,  "` and the list `["A@Ex.com", "b@ex.com"]`
parse to the same address sequence, so linking them under any role from any
store state produces identical participant tables; on a fresh store the
resulting Address table is exactly {"a@ex.com", "b@ex.com"} (trimmed,
lowercased) with one role link each. -/
theorem C7_recipients_representation_independent :
    (∀ (s : Store) (pk : Nat) (role : String),
        (parse_recipients (.str "A@Ex.com; b@ex.com,  ")).foldl
            (fun t a => add_participant t pk a role) s
          = (parse_recipients (.list ["A@Ex.com", "b@ex.com"])).foldl
            (fun t a => add_participant t pk a role) s) ∧
    ((parse_recipients (.str "A@Ex.com; b@ex.com,  ")).foldl
          (fun t a => add_participant t 1 a "to") emptyStore).addresses
        = [(1, "a@ex.com"), (2, "b@ex.com")] ∧
    ((parse_recipients (.str "A@Ex.com; b@ex.com,  ")).foldl
          (fun t a => add_participant t 1 a "to") emptyStore).participants
        = [(1, 1, "to"), (1, 2, "to")] := by
  refine ⟨?_, by decide, by decide⟩
  intro s pk role
  have hp : parse_recipients (.str "A@Ex.com; b@ex.com,  ")
      = parse_recipients (.list ["A@Ex.com", "b@ex.com"]) := by decide
  rw [hp]

/-- C8: The migration backfill is not idempotent on the `email` table: its
`INSERT OR IGNORE` has no uniqueness constraint to conflict with (only the
AUTOINCREMENT primary key), so a second run over an unchanged one-row
`downloaded_emails` table inserts a duplicate `email` row — while
`email_participant`, whose whole triple is the primary key, gains no rows. -/
theorem C8_backfill_second_run_duplicates_email_rows :
    (backfill migEmptyStore [row_mig]).emailRows.length = 1 ∧
    (backfill (backfill migEmptyStore [row_mig]) [row_mig]).emailRows.length = 2 ∧
    (backfill (backfill migEmptyStore [row_mig]) [row_mig]).participants
      = (backfill migEmptyStore [row_mig]).participants := by
  refine ⟨by decide, by decide, by decide⟩

/-- C9: A message with a known sender but no Message-ID header violates the
one-`from`-participation invariant: `get_or_create_email` inserts the
normalized `email` row, then its pk lookup compares `message_id` with NULL,
matches nothing, and raises before any participant is linked — the run leaves
exactly one `email` row with zero participation rows of any role. -/
theorem C9_missing_message_id_orphan_row :
    msg_noMid.sender ≠ "" ∧
    (run_sync mbox_noMid cfalse cfalse cfalse emptyStore).store.emailRows.length = 1 ∧
    (run_sync mbox_noMid cfalse cfalse cfalse emptyStore).store.participants = [] := by
  refine ⟨by decide, by decide, by decide⟩

/-- C10: The end-of-run per-message retry path writes only raw
`downloaded_emails` records: for any queue, any number of iterations and any
failure pattern, the normalized `email`, `email_address` and
`email_participant` tables and the UIDVALIDITY table are returned unchanged,
and every raw row it adds is a mailbox message's row. -/
theorem C10_retry_pass_writes_only_raw (M : Mailbox) (retryFails : String → Nat → Bool)
    (n : Nat) (s : Store) (lst : List (Nat × String)) (i : Nat) :
    ((retry_iter M retryFails n s lst i).1.emailRows = s.emailRows) ∧
    ((retry_iter M retryFails n s lst i).1.participants = s.participants) ∧
    ((retry_iter M retryFails n s lst i).1.addresses = s.addresses) ∧
    ((retry_iter M retryFails n s lst i).1.folderUidValidity = s.folderUidValidity) ∧
    (∀ r ∈ (retry_iter M retryFails n s lst i).1.downloaded,
        r ∈ s.downloaded ∨ ∃ m ∈ M.msgs r.folder, m.uid = r.uid) := by
  have hf := retry_iter_frame M retryFails n s lst i
  have hd := retry_iter_downloaded M retryFails n s lst i
  exact ⟨hf.1, hf.2.2.2.2.1, hf.2.2.1, hf.2.2.2.2.2, hd.2⟩

end MailBackup
